import Mathlib

/-!
Verification of the streaming response renderer and path sandbox of the
captain repository.

The development shallowly embeds src/utils/stream_handler.py (class
StreamHandler) and src/tools/vlm_tools.py.  Python dicts are modelled as
insertion-ordered association lists, rich Live regions by their
active/inactive flag (their rendered content is transient and never
persisted), console prints by a growing list of permanent panels, and the
persistence sink (save_content) by a growing list of writes.  JSON decoding
of tool-call / tool-result payload strings is resolved at the event
boundary: a payload is either the decoded record or a marker carrying the
raw string on a JSONDecodeError, mirroring the two branches of each
handler's try/except.
-/

namespace Captain

/-! ### Association lists modelling Python dict / OrderedDict -/

/-- Lookup in an insertion-ordered association list (dict access d[k] /
containment k in d). -/
def getVal {α : Type} (k : String) : List (String × α) → Option α
  | [] => none
  | (k₂, v) :: t => if k₂ = k then some v else getVal k t

/-- Assignment d[k] = v: replace in place when the key exists (keeping its
position, as OrderedDict does), otherwise append at the end. -/
def setVal {α : Type} (k : String) (v : α) : List (String × α) → List (String × α)
  | [] => [(k, v)]
  | (k₂, v₂) :: t => if k₂ = k then (k, v) :: t else (k₂, v₂) :: setVal k v t

/-- Deletion del d[k]: remove the (unique, under the key-distinctness
invariant) binding of k. -/
def delVal {α : Type} (k : String) : List (String × α) → List (String × α)
  | [] => []
  | (k₂, v₂) :: t => if k₂ = k then t else (k₂, v₂) :: delVal k t

/-! ### Character-level string primitives

Python slicing, lower-casing and prefix tests operate on characters; they
are modelled on the character list of a string so that every definition
evaluates by kernel reduction. -/

/-- Python slicing s up to n characters. -/
def strTake (s : String) (n : Nat) : String :=
  String.mk (s.toList.take n)

/-- Python str.lower, character by character. -/
def strToLower (s : String) : String :=
  String.mk (s.toList.map Char.toLower)

/-- Python str.startswith. -/
def strStartsWith (s pre : String) : Bool :=
  pre.toList.isPrefixOf s.toList

/-! ### Data model of stream_handler.py -/

/-- Status field of one tool invocation record. -/
inductive ToolStatus where
  | pending
  | complete
  deriving DecidableEq, Repr

/-- One entry of StreamHandler.tool_states: the dict inserted by
handle_tool_call / handle_sub_agent_tool_call (the subagent key is present
only on sub-agent records). -/
structure ToolState where
  name : String
  argsStr : String
  status : ToolStatus
  result : Option String
  subagent : Option String
  deriving DecidableEq, Repr

/-- Outcome of json.loads on a handler's content string, resolved at the
event boundary: ok carries the decoded fields, malformed carries the raw
string of a JSONDecodeError. -/
inductive Parsed (α : Type) where
  | ok (val : α)
  | malformed (raw : String)
  deriving DecidableEq, Repr

/-- Decoded payload of a tool_call event: id and name via dict lookup with
default, argsStr the pretty-printed arguments (json.dumps with indent 2, or
the str fallback), computed once at the parse boundary. -/
structure ToolCallData where
  id : String
  name : String
  argsStr : String
  deriving DecidableEq, Repr

/-- Decoded payload of a sub_agent_tool_call event; subagent already carries
the SubAgent default applied by the handler. -/
structure SubToolCallData where
  id : String
  name : String
  argsStr : String
  subagent : String
  deriving DecidableEq, Repr

/-- Decoded payload of a tool_result / sub_agent_tool_result event; content
is the str() image of result_data.get applied with the raw string default. -/
structure ToolResultData where
  id : String
  content : String
  deriving DecidableEq, Repr

/-- Permanent console prints (transient live-region redraws are not
recorded; only console.print calls are). -/
inductive ConsoleOut where
  | toolCompletePanel (nameDisplay argsStr resultShown : String)
  | parseErrorPanel (msg : String)
  | subAgentStartPanel (subagentName taskShown : String)
  | subAgentEndPanel (preview : String)
  | streamErrorPanel (msg : String)
  deriving DecidableEq, Repr

/-- Calls of the persistence sink save_content(output_path, category,
payload): either a text payload under a category, or the structured
name/arguments record written under the tool_call category. -/
inductive SinkWrite where
  | textContent (category : String) (payload : String)
  | toolCallRecord (name : String) (argsStr : String)
  deriving DecidableEq, Repr

/-- Complete mutable state of one StreamHandler instance, together with the
observable history of console prints and sink writes. -/
structure HandlerState where
  toolStates : List (String × ToolState)
  pendingResults : List (String × String)
  thinkingBuffer : List String
  answerBuffer : List String
  currentState : Option String
  currentLive : Bool
  toolsLive : Bool
  console : List ConsoleOut
  sink : List SinkWrite
  deriving DecidableEq, Repr

/-- State right after StreamHandler.__init__ (also the state produced by
reset, up to the recorded histories). -/
def initialState : HandlerState :=
  { toolStates := [], pendingResults := [], thinkingBuffer := [], answerBuffer := [],
    currentState := none, currentLive := false, toolsLive := false,
    console := [], sink := [] }

/-! ### Live-region management -/

/-- StreamHandler._update_live: create the content live region when absent,
otherwise redraw it; either way it is active afterwards. -/
def updateLive (s : HandlerState) : HandlerState :=
  { s with currentLive := true }

/-- StreamHandler._stop_current_live. -/
def stopCurrentLive (s : HandlerState) : HandlerState :=
  { s with currentLive := false }

/-- StreamHandler._render_pending_tools returns a non-empty group exactly
when some record is still pending. -/
def anyPending (s : HandlerState) : Bool :=
  s.toolStates.any (fun kv => decide (kv.2.status = ToolStatus.pending))

/-- StreamHandler._update_tools_live: tear the tool region down when nothing
is pending, otherwise create/redraw it. -/
def updateToolsLive (s : HandlerState) : HandlerState :=
  if anyPending s then { s with toolsLive := true } else { s with toolsLive := false }

/-- StreamHandler._stop_tools_live. -/
def stopToolsLive (s : HandlerState) : HandlerState :=
  { s with toolsLive := false }

/-! ### Buffer flushing and phase transitions -/

/-- StreamHandler._save_and_clear_buffers: write each non-empty buffer to
the sink as one joined unit under the given category, then clear it.  The
source declares the category parameters with defaults think and answer;
call sites below pass those defaults explicitly. -/
def saveAndClearBuffers (thinkType answerType : String) (s : HandlerState) : HandlerState :=
  let s1 :=
    if s.thinkingBuffer = [] then s
    else { s with
             sink := s.sink ++ [SinkWrite.textContent thinkType (String.join s.thinkingBuffer)],
             thinkingBuffer := [] }
  if s1.answerBuffer = [] then s1
  else { s1 with
           sink := s1.sink ++ [SinkWrite.textContent answerType (String.join s1.answerBuffer)],
           answerBuffer := [] }

/-- The four tool-activity phase strings tested by
StreamHandler._transition_from_tool_state. -/
def isToolPhase (st : Option String) : Bool :=
  st == some "tool_call" || st == some "tool_result" ||
    st == some "sub_agent_tool_call" || st == some "sub_agent_tool_result"

/-- StreamHandler._transition_from_tool_state: stop the tool live region
when the current phase is a tool-activity phase. -/
def transitionFromToolState (s : HandlerState) : HandlerState :=
  if isToolPhase s.currentState then stopToolsLive s else s

/-- StreamHandler._transition_from_content_state: after the tool-phase
teardown, flush both buffers and stop the content region, but only when the
target phase differs from the current one and a content live region is
active. -/
def transitionFromContentState (targetState thinkType answerType : String)
    (s : HandlerState) : HandlerState :=
  let s1 := transitionFromToolState s
  if s1.currentState ≠ some targetState ∧ s1.currentLive then
    stopCurrentLive (saveAndClearBuffers thinkType answerType s1)
  else s1

/-! ### Tool completion printing -/

/-- Display truncation in StreamHandler._print_tool_complete: cap the shown
result at its first 1000 characters and append the truncation marker past
the cap. -/
def truncateToolResult (r : String) : String :=
  if r.length > 1000 then strTake r 1000 ++ "\n... (truncated)" else r

/-- Name display of a record: bracketed sub-agent label before the name when
the record came from a sub-agent tool call. -/
def nameDisplayOf (st : ToolState) : String :=
  match st.subagent with
  | some sa => "[" ++ sa ++ "] " ++ st.name
  | none => st.name

/-- StreamHandler._print_tool_complete: print the permanent completion panel
and immediately persist the name/arguments record under the tool_call
category. -/
def printToolComplete (st : ToolState) (s : HandlerState) : HandlerState :=
  let resultShown := truncateToolResult (st.result.getD "")
  let s1 := { s with
                console := s.console ++
                  [ConsoleOut.toolCompletePanel (nameDisplayOf st) st.argsStr resultShown] }
  { s1 with sink := s1.sink ++ [SinkWrite.toolCallRecord st.name st.argsStr] }

/-! ### Event handlers -/

/-- StreamHandler.handle_model_thinking. -/
def handleModelThinking (content : String) (s : HandlerState) : HandlerState :=
  let s1 := transitionFromContentState "model_thinking" "think" "answer" s
  let s2 := { s1 with currentState := some "model_thinking" }
  let s3 := { s2 with thinkingBuffer := s2.thinkingBuffer ++ [content] }
  updateLive s3

/-- StreamHandler.handle_model_answer (the Markdown rendering affects only
the transient live content). -/
def handleModelAnswer (content : String) (s : HandlerState) : HandlerState :=
  let s1 := transitionFromContentState "model_answer" "think" "answer" s
  let s2 := { s1 with currentState := some "model_answer" }
  let s3 := { s2 with answerBuffer := s2.answerBuffer ++ [content] }
  updateLive s3

/-- StreamHandler.handle_tool_call. -/
def handleToolCall (payload : Parsed ToolCallData) (s : HandlerState) : HandlerState :=
  let s1 :=
    if s.currentState ≠ some "tool_call" ∧ s.currentState ≠ some "tool_result" then
      if s.currentLive then stopCurrentLive (saveAndClearBuffers "think" "answer" s) else s
    else s
  let s2 := { s1 with currentState := some "tool_call" }
  match payload with
  | Parsed.malformed raw =>
      { s2 with console := s2.console ++
          [ConsoleOut.parseErrorPanel ("Error parsing tool call: " ++ raw)] }
  | Parsed.ok d =>
      let fresh : ToolState :=
        { name := d.name, argsStr := d.argsStr, status := ToolStatus.pending,
          result := none, subagent := none }
      let s3 := { s2 with toolStates := setVal d.id fresh s2.toolStates }
      match getVal d.id s3.pendingResults with
      | some cached =>
          let done : ToolState := { fresh with status := ToolStatus.complete, result := some cached }
          let s4 := { s3 with toolStates := setVal d.id done s3.toolStates,
                              pendingResults := delVal d.id s3.pendingResults }
          printToolComplete done (stopToolsLive s4)
      | none => updateToolsLive s3

/-- StreamHandler.handle_tool_result. -/
def handleToolResult (payload : Parsed ToolResultData) (s : HandlerState) : HandlerState :=
  let s1 := { s with currentState := some "tool_result" }
  match payload with
  | Parsed.malformed raw =>
      { s1 with console := s1.console ++
          [ConsoleOut.parseErrorPanel ("Error parsing tool result: " ++ raw)] }
  | Parsed.ok d =>
      match getVal d.id s1.toolStates with
      | some st =>
          let done := { st with status := ToolStatus.complete, result := some d.content }
          let s2 := { s1 with toolStates := setVal d.id done s1.toolStates }
          updateToolsLive (printToolComplete done (stopToolsLive s2))
      | none => { s1 with pendingResults := setVal d.id d.content s1.pendingResults }

/-- Task-description truncation in StreamHandler.handle_sub_agent_start (cap
200 characters). -/
def truncateTask (t : String) : String :=
  if t.length > 200 then strTake t 200 ++ "..." else t

/-- StreamHandler.handle_sub_agent_start; the subagent and task parameters
model response.get with their in-handler defaults general and empty. -/
def handleSubAgentStart (subagent task : Option String) (s : HandlerState) : HandlerState :=
  let subagentName := subagent.getD "general"
  let taskDesc := task.getD ""
  let s1 :=
    if s.currentState ≠ some "tool_call" ∧ s.currentState ≠ some "tool_result" then
      if s.currentLive then stopCurrentLive (saveAndClearBuffers "think" "answer" s) else s
    else s
  let s2 := stopToolsLive s1
  let s3 := { s2 with currentState := some "sub_agent" }
  { s3 with console := s3.console ++
      [ConsoleOut.subAgentStartPanel subagentName (truncateTask taskDesc)] }

/-- Preview truncation in StreamHandler.handle_sub_agent_end (cap 500
characters). -/
def truncateSubAgentResult (c : String) : String :=
  if c.length > 500 then strTake c 500 ++ "..." else c

/-- StreamHandler.handle_sub_agent_end. -/
def handleSubAgentEnd (content : String) (s : HandlerState) : HandlerState :=
  let s1 :=
    if s.currentLive then stopCurrentLive (saveAndClearBuffers "sub_agent_think" "sub_agent_answer" s)
    else s
  let s2 := stopToolsLive s1
  let s3 := { s2 with console := s2.console ++
      [ConsoleOut.subAgentEndPanel (truncateSubAgentResult content)] }
  { s3 with sink := s3.sink ++ [SinkWrite.textContent "sub_agent" content] }

/-- StreamHandler.handle_sub_agent_thinking (the subagent label only affects
the transient live panel title). -/
def handleSubAgentThinking (content : String) (_subagent : String) (s : HandlerState) : HandlerState :=
  let s1 := transitionFromContentState "sub_agent_thinking" "sub_agent_think" "sub_agent_answer" s
  let s2 := { s1 with currentState := some "sub_agent_thinking" }
  let s3 := { s2 with thinkingBuffer := s2.thinkingBuffer ++ [content] }
  updateLive s3

/-- StreamHandler.handle_sub_agent_answer. -/
def handleSubAgentAnswer (content : String) (_subagent : String) (s : HandlerState) : HandlerState :=
  let s1 := transitionFromContentState "sub_agent_answer" "sub_agent_think" "sub_agent_answer" s
  let s2 := { s1 with currentState := some "sub_agent_answer" }
  let s3 := { s2 with answerBuffer := s2.answerBuffer ++ [content] }
  updateLive s3

/-- StreamHandler.handle_sub_agent_tool_call. -/
def handleSubAgentToolCall (payload : Parsed SubToolCallData) (s : HandlerState) : HandlerState :=
  let s1 :=
    if s.currentState ≠ some "tool_call" ∧ s.currentState ≠ some "tool_result" ∧
        s.currentState ≠ some "sub_agent_tool_call" ∧ s.currentState ≠ some "sub_agent_tool_result" then
      if s.currentLive then
        stopCurrentLive (saveAndClearBuffers "sub_agent_think" "sub_agent_answer" s)
      else s
    else s
  let s2 := { s1 with currentState := some "sub_agent_tool_call" }
  match payload with
  | Parsed.malformed raw =>
      { s2 with console := s2.console ++
          [ConsoleOut.parseErrorPanel ("Error parsing sub_agent tool call: " ++ raw)] }
  | Parsed.ok d =>
      let fresh : ToolState :=
        { name := d.name, argsStr := d.argsStr, status := ToolStatus.pending,
          result := none, subagent := some d.subagent }
      let s3 := { s2 with toolStates := setVal d.id fresh s2.toolStates }
      match getVal d.id s3.pendingResults with
      | some cached =>
          let done : ToolState := { fresh with status := ToolStatus.complete, result := some cached }
          let s4 := { s3 with toolStates := setVal d.id done s3.toolStates,
                              pendingResults := delVal d.id s3.pendingResults }
          printToolComplete done (stopToolsLive s4)
      | none => updateToolsLive s3

/-- StreamHandler.handle_sub_agent_tool_result. -/
def handleSubAgentToolResult (payload : Parsed ToolResultData) (s : HandlerState) : HandlerState :=
  let s1 := { s with currentState := some "sub_agent_tool_result" }
  match payload with
  | Parsed.malformed raw =>
      { s1 with console := s1.console ++
          [ConsoleOut.parseErrorPanel ("Error parsing sub_agent tool result: " ++ raw)] }
  | Parsed.ok d =>
      match getVal d.id s1.toolStates with
      | some st =>
          let done := { st with status := ToolStatus.complete, result := some d.content }
          let s2 := { s1 with toolStates := setVal d.id done s1.toolStates }
          updateToolsLive (printToolComplete done (stopToolsLive s2))
      | none => { s1 with pendingResults := setVal d.id d.content s1.pendingResults }

/-- StreamHandler.handle_error. -/
def handleError (content : String) (s : HandlerState) : HandlerState :=
  let s1 := stopCurrentLive (stopToolsLive s)
  { s1 with console := s1.console ++ [ConsoleOut.streamErrorPanel content] }

/-- StreamHandler.finalize. -/
def finalize (s : HandlerState) : HandlerState :=
  saveAndClearBuffers "think" "answer" (stopCurrentLive (stopToolsLive s))

/-! ### The dispatcher -/

/-- One stream event as the dispatcher sees it after the event-boundary
resolution of payloads; ignored stands for any response whose type tag is
missing or unrecognized. -/
inductive Event where
  | modelThinking (content : String)
  | modelAnswer (content : String)
  | toolCall (payload : Parsed ToolCallData)
  | toolResult (payload : Parsed ToolResultData)
  | subAgentStart (subagent task : Option String)
  | subAgentEnd (content : String)
  | subAgentThinking (content : String) (subagent : String)
  | subAgentAnswer (content : String) (subagent : String)
  | subAgentToolCall (payload : Parsed SubToolCallData)
  | subAgentToolResult (payload : Parsed ToolResultData)
  | errorEvent (content : String)
  | ignored
  deriving DecidableEq, Repr

/-- Effect of one dispatched event on the handler state. -/
def eventStep (e : Event) (s : HandlerState) : HandlerState :=
  match e with
  | Event.modelThinking c => handleModelThinking c s
  | Event.modelAnswer c => handleModelAnswer c s
  | Event.toolCall p => handleToolCall p s
  | Event.toolResult p => handleToolResult p s
  | Event.subAgentStart sa task => handleSubAgentStart sa task s
  | Event.subAgentEnd c => handleSubAgentEnd c s
  | Event.subAgentThinking c sa => handleSubAgentThinking c sa s
  | Event.subAgentAnswer c sa => handleSubAgentAnswer c sa s
  | Event.subAgentToolCall p => handleSubAgentToolCall p s
  | Event.subAgentToolResult p => handleSubAgentToolResult p s
  | Event.errorEvent c => handleError c s
  | Event.ignored => s

/-- Sequential processing of a stream of events (one turn). -/
def processEvents (es : List Event) (s : HandlerState) : HandlerState :=
  es.foldl (fun acc e => eventStep e acc) s

/-- One raw response dict as received by StreamHandler.handle_response:
typeTag is response.get with the type key, content the content key with
empty-string default, and the three view fields are the json.loads outcome
of the content string under the three decoded readings, resolved at the
event boundary. -/
structure RawResponse where
  typeTag : Option String
  content : String
  subagent : Option String
  task : Option String
  toolCallView : Parsed ToolCallData
  toolResultView : Parsed ToolResultData
  subToolCallView : Parsed SubToolCallData
  deriving DecidableEq, Repr

/-- StreamHandler.handle_response: the dispatch entry point.  A None
response, a missing type tag, a falsy (empty) tag, and an unrecognized tag
all fall through without invoking any handler. -/
def handleResponse (response : Option RawResponse) (s : HandlerState) : HandlerState :=
  match response with
  | none => s
  | some r =>
    match r.typeTag with
    | none => s
    | some t =>
      if t = "" then s
      else if t = "model_thinking" then handleModelThinking r.content s
      else if t = "model_answer" then handleModelAnswer r.content s
      else if t = "tool_call" then handleToolCall r.toolCallView s
      else if t = "tool_result" then handleToolResult r.toolResultView s
      else if t = "sub_agent_start" then handleSubAgentStart r.subagent r.task s
      else if t = "sub_agent_end" then handleSubAgentEnd r.content s
      else if t = "sub_agent_thinking" then handleSubAgentThinking r.content (r.subagent.getD "SubAgent") s
      else if t = "sub_agent_answer" then handleSubAgentAnswer r.content (r.subagent.getD "SubAgent") s
      else if t = "sub_agent_tool_call" then handleSubAgentToolCall r.subToolCallView s
      else if t = "sub_agent_tool_result" then handleSubAgentToolResult r.toolResultView s
      else if t = "error" then handleError r.content s
      else s

/-! ### vlm_tools.py: path sandbox and read_image -/

/-- Exceptions raised by the read_image tool and its helpers. -/
inductive ImgErr where
  | permissionError (msg : String)
  | fileNotFoundError (msg : String)
  | valueError (msg : String)
  deriving DecidableEq, Repr

/-- Leading-slash stripping in _resolve_path: path.lstrip applied to the two
slash characters. -/
def stripLeadingSlashes (p : String) : String :=
  String.mk (p.toList.dropWhile (fun c => c == '/' || c == '\\'))

/-- Splitting a character list at every occurrence of a separator, with the
semantics of str.split on a single-character separator (an empty input
yields one empty piece). -/
def splitOnChar (c : Char) : List Char → List (List Char)
  | [] => [[]]
  | x :: t =>
    let r := splitOnChar c t
    if x = c then [] :: r
    else
      match r with
      | [] => [[x]]
      | h :: t2 => (x :: h) :: t2

/-- Decomposition of a path string into its components, as pathlib.Path
does on POSIX: split on the separator, dropping empty and single-dot
components. -/
def pathSegments (p : String) : List String :=
  ((splitOnChar '/' p.toList).map String.mk).filter (fun seg => seg ≠ "" ∧ seg ≠ ".")

/-- Path.resolve on a list of components rooted at the filesystem root:
each parent component pops the last component (a parent of the root is the
root itself).  Symbolic-link expansion is abstracted away; the containment
check below applies to the fully resolved path either way. -/
def resolveSegments (segs : List String) : List String :=
  segs.foldl (fun acc seg => if seg = ".." then acc.dropLast else acc ++ [seg]) []

/-- The _resolve_path helper: strip leading slashes (such paths are treated
as workspace-relative), join under the resolved workspace, resolve, and
reject any result that does not stay inside the workspace.  After the strip
the path can no longer be absolute, so only the workspace-relative branch
of the source remains.  The workspace argument is the component list of the
already-resolved workspace directory. -/
def resolvePath (workspace : List String) (path : String) : Except ImgErr (List String) :=
  let stripped := stripLeadingSlashes path
  let segs := pathSegments stripped
  let resolved := resolveSegments (workspace ++ segs)
  if workspace.isPrefixOf resolved then Except.ok resolved
  else Except.error (ImgErr.permissionError ("Access denied: path is outside workspace: " ++ path))

/-- Suffix of a file name exactly as pathlib computes it: the part from the
last dot on, provided that dot is neither the first nor the last character
of the name. -/
def pySuffix (nm : String) : String :=
  let parts := (splitOnChar '.' nm.toList).map String.mk
  match parts with
  | [] => ""
  | [_] => ""
  | _ =>
    let last := parts.getLastD ""
    if last ≠ "" ∧ nm.length > last.length + 1 then "." ++ last else ""

/-- The _validate_image_extension helper, applied as in the source to the
string form of the resolved path (whose suffix is that of its last
component). -/
def validateImageExtension (resolved : List String) : Bool :=
  let ext := strToLower (pySuffix (resolved.getLastD ""))
  ext == ".jpg" || ext == ".jpeg" || ext == ".png" || ext == ".gif" ||
    ext == ".webp" || ext == ".bmp"

/-- External filesystem facts consumed by the local-file branch: existence,
file-ness, raw bytes, and the mimetypes guess (none models a failed
guess). -/
structure FileSys where
  pathExists : List String → Bool
  isFile : List String → Bool
  readBytes : List String → List Nat
  guessMime : List String → Option String

/-- The _get_media_type helper: mimetypes guess with the jpeg fallback. -/
def getMediaType (fs : FileSys) (p : List String) : String :=
  (fs.guessMime p).getD "image/jpeg"

/-- Value returned by read_image: either the URL passthrough content or the
base64 local-file content (base64 encoding is abstracted; the data field
carries the bytes that were read). -/
inductive ImageContent where
  | urlImage (prompt url : String)
  | base64Image (prompt mimeType : String) (data : List Nat)
  deriving DecidableEq, Repr

/-- The read_image tool.  The URL branch passes the URL through; the local
branch resolves the path inside the workspace sandbox, checks existence,
file-ness and the image extension, then reads the bytes.  A PermissionError
from _resolve_path is re-raised with the permission-denied message, other
errors propagate unchanged. -/
def readImage (fs : FileSys) (workspace : List String) (pathOrUrl prompt : String) :
    Except ImgErr ImageContent :=
  if strStartsWith pathOrUrl "http://" || strStartsWith pathOrUrl "https://" then
    Except.ok (ImageContent.urlImage prompt pathOrUrl)
  else
    match resolvePath workspace pathOrUrl with
    | Except.error (ImgErr.permissionError _) =>
        Except.error (ImgErr.permissionError ("Permission denied reading file: " ++ pathOrUrl))
    | Except.error e => Except.error e
    | Except.ok filePath =>
        if ¬ fs.pathExists filePath then
          Except.error (ImgErr.fileNotFoundError ("Image file not found: " ++ pathOrUrl))
        else if ¬ fs.isFile filePath then
          Except.error (ImgErr.valueError ("Path is not a file: " ++ pathOrUrl))
        else if ¬ validateImageExtension filePath then
          Except.error (ImgErr.valueError "Unsupported image format. Supported: jpeg, png, gif, webp, bmp")
        else
          Except.ok (ImageContent.base64Image prompt (getMediaType fs filePath) (fs.readBytes filePath))

/-! ### Statement helpers -/

/-- Sink writes produced by one _save_and_clear_buffers call: one text write
per non-empty buffer, holding the concatenation of its fragments in arrival
order. -/
def flushWrites (thinkType answerType : String) (s : HandlerState) : List SinkWrite :=
  (if s.thinkingBuffer = [] then []
   else [SinkWrite.textContent thinkType (String.join s.thinkingBuffer)]) ++
  (if s.answerBuffer = [] then []
   else [SinkWrite.textContent answerType (String.join s.answerBuffer)])

/-- Sink writes of the transition block at the top of handle_tool_call and
handle_sub_agent_start: a flush under the top-level categories exactly when
the current phase is not a top-level tool phase and a content live region
is active. -/
def preToolCallWrites (s : HandlerState) : List SinkWrite :=
  if (s.currentState ≠ some "tool_call" ∧ s.currentState ≠ some "tool_result") ∧ s.currentLive then
    flushWrites "think" "answer" s
  else []

/-- Sink writes of the transition block at the top of
handle_sub_agent_tool_call: a flush under the sub-agent categories exactly
when the current phase is none of the four tool phases and a content live
region is active. -/
def preSubToolCallWrites (s : HandlerState) : List SinkWrite :=
  if (s.currentState ≠ some "tool_call" ∧ s.currentState ≠ some "tool_result" ∧
      s.currentState ≠ some "sub_agent_tool_call" ∧ s.currentState ≠ some "sub_agent_tool_result") ∧
      s.currentLive then
    flushWrites "sub_agent_think" "sub_agent_answer" s
  else []

/-- The handler application of one tool-call event: top-level when subLabel
is none, sub-agent (with that label) otherwise. -/
def callStepOf (k nm ar : String) (subLabel : Option String) : HandlerState → HandlerState :=
  match subLabel with
  | none => handleToolCall (Parsed.ok ⟨k, nm, ar⟩)
  | some sa => handleSubAgentToolCall (Parsed.ok ⟨k, nm, ar, sa⟩)

/-- The handler application of one tool-result event: sub-agent flavour when
subResult is true, top-level otherwise. -/
def resStepOf (k res : String) (subResult : Bool) : HandlerState → HandlerState :=
  if subResult then handleSubAgentToolResult (Parsed.ok ⟨k, res⟩)
  else handleToolResult (Parsed.ok ⟨k, res⟩)

/-- The four content-event kinds (thinking/answer, top-level/sub-agent). -/
inductive ContentKind where
  | modelThinking
  | modelAnswer
  | subThinking
  | subAnswer
  deriving DecidableEq, Repr

/-- Phase string the handler of this content kind activates. -/
def contentPhaseOf : ContentKind → String
  | ContentKind.modelThinking => "model_thinking"
  | ContentKind.modelAnswer => "model_answer"
  | ContentKind.subThinking => "sub_agent_thinking"
  | ContentKind.subAnswer => "sub_agent_answer"

/-- Thinking-flush category passed by the handler of this content kind. -/
def contentThinkCat : ContentKind → String
  | ContentKind.modelThinking | ContentKind.modelAnswer => "think"
  | ContentKind.subThinking | ContentKind.subAnswer => "sub_agent_think"

/-- Answer-flush category passed by the handler of this content kind. -/
def contentAnswerCat : ContentKind → String
  | ContentKind.modelThinking | ContentKind.modelAnswer => "answer"
  | ContentKind.subThinking | ContentKind.subAnswer => "sub_agent_answer"

/-- Whether this content kind appends to the thinking buffer (else the
answer buffer). -/
def isThinkingKind : ContentKind → Bool
  | ContentKind.modelThinking | ContentKind.subThinking => true
  | ContentKind.modelAnswer | ContentKind.subAnswer => false

/-- The source handler of this content kind (the sub-agent label only
affects the transient live panel title). -/
def contentHandlerOf : ContentKind → String → HandlerState → HandlerState
  | ContentKind.modelThinking => handleModelThinking
  | ContentKind.modelAnswer => handleModelAnswer
  | ContentKind.subThinking => fun c => handleSubAgentThinking c "SubAgent"
  | ContentKind.subAnswer => fun c => handleSubAgentAnswer c "SubAgent"

/-- Whether an event is a successfully decoded (sub-agent or top-level)
tool-call event carrying the id k. -/
def isCallEvent (k : String) : Event → Bool
  | Event.toolCall (Parsed.ok d) => d.id == k
  | Event.subAgentToolCall (Parsed.ok d) => d.id == k
  | _ => false

/-- Whether an event is a successfully decoded (sub-agent or top-level)
tool-result event carrying the id k. -/
def isResultEvent (k : String) : Event → Bool
  | Event.toolResult (Parsed.ok d) => d.id == k
  | Event.subAgentToolResult (Parsed.ok d) => d.id == k
  | _ => false

/-- Number of call events for id k in a trace. -/
def callCount (k : String) (es : List Event) : Nat :=
  es.countP (isCallEvent k)

/-- Number of result events for id k in a trace. -/
def resultCount (k : String) (es : List Event) : Nat :=
  es.countP (isResultEvent k)

/-! ### Workhorse lemmas -/

theorem saveAndClearBuffers_eq (tt ty : String) (s : HandlerState) :
    saveAndClearBuffers tt ty s =
      { s with thinkingBuffer := [], answerBuffer := [],
               sink := s.sink ++ flushWrites tt ty s } := by
  cases s with
  | mk ts pr tb ab cs cl tl co sk =>
    unfold saveAndClearBuffers flushWrites
    by_cases h1 : tb = [] <;> by_cases h2 : ab = [] <;> simp [h1, h2]

theorem flushWrites_congr (tt ty : String) {s t : HandlerState}
    (h1 : s.thinkingBuffer = t.thinkingBuffer) (h2 : s.answerBuffer = t.answerBuffer) :
    flushWrites tt ty s = flushWrites tt ty t := by
  unfold flushWrites
  rw [h1, h2]

theorem updateToolsLive_eq (s : HandlerState) :
    updateToolsLive s = { s with toolsLive := anyPending s } := by
  unfold updateToolsLive
  by_cases h : anyPending s <;> simp [h]

theorem getVal_setVal_self {α : Type} (k : String) (v : α) (l : List (String × α)) :
    getVal k (setVal k v l) = some v := by
  induction l with
  | nil => simp [getVal, setVal]
  | cons hd tl ih =>
    obtain ⟨k₂, v₂⟩ := hd
    by_cases h : k₂ = k <;> simp [getVal, setVal, h, ih]

theorem getVal_setVal_ne {α : Type} {k k₂ : String} (hne : k₂ ≠ k) (v : α)
    (l : List (String × α)) : getVal k (setVal k₂ v l) = getVal k l := by
  induction l with
  | nil => simp [getVal, setVal, hne]
  | cons hd tl ih =>
    obtain ⟨k₃, v₃⟩ := hd
    by_cases h : k₃ = k₂
    · subst h
      simp [getVal, setVal, hne]
    · simp [getVal, setVal, h, ih]

theorem delVal_setVal_of_getVal_none {α : Type} {k : String} {l : List (String × α)}
    (h : getVal k l = none) (v : α) : delVal k (setVal k v l) = l := by
  induction l with
  | nil => simp [setVal, delVal]
  | cons hd tl ih =>
    obtain ⟨k₂, v₂⟩ := hd
    by_cases hk : k₂ = k
    · simp [getVal, hk] at h
    · simp [getVal, hk] at h
      simp [setVal, delVal, hk, ih h]

theorem getVal_none_of_not_mem {α : Type} {k : String} {l : List (String × α)}
    (h : k ∉ l.map Prod.fst) : getVal k l = none := by
  induction l with
  | nil => rfl
  | cons hd tl ih =>
    obtain ⟨k₂, v₂⟩ := hd
    simp only [List.map_cons, List.mem_cons, not_or] at h
    obtain ⟨h1, h2⟩ := h
    rw [getVal, if_neg (fun hk => h1 hk.symm)]
    exact ih h2

theorem resolvePath_ok_prefix {ws : List String} {path : String} {p : List String}
    (h : resolvePath ws path = Except.ok p) : ws.isPrefixOf p = true := by
  simp only [resolvePath] at h
  split_ifs at h with hc
  cases h
  exact hc

theorem saveAndClearBuffers_of_empty (tt ty : String) (s : HandlerState)
    (h1 : s.thinkingBuffer = []) (h2 : s.answerBuffer = []) :
    saveAndClearBuffers tt ty s = s := by
  rw [saveAndClearBuffers_eq]
  unfold flushWrites
  rw [if_pos h1, if_pos h2]
  cases s with
  | mk ts pr tb ab cs cl tl co sk =>
    simp only at h1 h2
    subst h1
    subst h2
    simp only [List.nil_append, List.append_nil]

theorem toolStates_handleToolCall_ok (d : ToolCallData) (s : HandlerState) :
    (handleToolCall (Parsed.ok d) s).toolStates =
      match getVal d.id s.pendingResults with
      | some cached =>
          setVal d.id ⟨d.name, d.argsStr, ToolStatus.complete, some cached, none⟩
            (setVal d.id ⟨d.name, d.argsStr, ToolStatus.pending, none, none⟩ s.toolStates)
      | none => setVal d.id ⟨d.name, d.argsStr, ToolStatus.pending, none, none⟩ s.toolStates := by
  cases hpr : getVal d.id s.pendingResults <;>
    simp [handleToolCall, hpr, saveAndClearBuffers_eq, stopCurrentLive, stopToolsLive,
      printToolComplete, updateToolsLive_eq, apply_ite HandlerState.toolStates,
      apply_ite HandlerState.pendingResults]

theorem pendingResults_handleToolCall_ok (d : ToolCallData) (s : HandlerState) :
    (handleToolCall (Parsed.ok d) s).pendingResults =
      match getVal d.id s.pendingResults with
      | some _ => delVal d.id s.pendingResults
      | none => s.pendingResults := by
  cases hpr : getVal d.id s.pendingResults <;>
    simp [handleToolCall, hpr, saveAndClearBuffers_eq, stopCurrentLive, stopToolsLive,
      printToolComplete, updateToolsLive_eq, apply_ite HandlerState.toolStates,
      apply_ite HandlerState.pendingResults]

theorem toolStates_handleSubAgentToolCall_ok (d : SubToolCallData) (s : HandlerState) :
    (handleSubAgentToolCall (Parsed.ok d) s).toolStates =
      match getVal d.id s.pendingResults with
      | some cached =>
          setVal d.id ⟨d.name, d.argsStr, ToolStatus.complete, some cached, some d.subagent⟩
            (setVal d.id ⟨d.name, d.argsStr, ToolStatus.pending, none, some d.subagent⟩ s.toolStates)
      | none =>
          setVal d.id ⟨d.name, d.argsStr, ToolStatus.pending, none, some d.subagent⟩ s.toolStates := by
  cases hpr : getVal d.id s.pendingResults <;>
    simp [handleSubAgentToolCall, hpr, saveAndClearBuffers_eq, stopCurrentLive, stopToolsLive,
      printToolComplete, updateToolsLive_eq, apply_ite HandlerState.toolStates,
      apply_ite HandlerState.pendingResults]

theorem pendingResults_handleSubAgentToolCall_ok (d : SubToolCallData) (s : HandlerState) :
    (handleSubAgentToolCall (Parsed.ok d) s).pendingResults =
      match getVal d.id s.pendingResults with
      | some _ => delVal d.id s.pendingResults
      | none => s.pendingResults := by
  cases hpr : getVal d.id s.pendingResults <;>
    simp [handleSubAgentToolCall, hpr, saveAndClearBuffers_eq, stopCurrentLive, stopToolsLive,
      printToolComplete, updateToolsLive_eq, apply_ite HandlerState.toolStates,
      apply_ite HandlerState.pendingResults]

theorem toolStates_handleToolResult_ok (d : ToolResultData) (s : HandlerState) :
    (handleToolResult (Parsed.ok d) s).toolStates =
      match getVal d.id s.toolStates with
      | some st =>
          setVal d.id { st with status := ToolStatus.complete, result := some d.content } s.toolStates
      | none => s.toolStates := by
  cases hts : getVal d.id s.toolStates <;>
    simp [handleToolResult, hts, stopToolsLive, printToolComplete, updateToolsLive_eq]

theorem pendingResults_handleToolResult_ok (d : ToolResultData) (s : HandlerState) :
    (handleToolResult (Parsed.ok d) s).pendingResults =
      match getVal d.id s.toolStates with
      | some _ => s.pendingResults
      | none => setVal d.id d.content s.pendingResults := by
  cases hts : getVal d.id s.toolStates <;>
    simp [handleToolResult, hts, stopToolsLive, printToolComplete, updateToolsLive_eq]

theorem toolStates_handleSubAgentToolResult_ok (d : ToolResultData) (s : HandlerState) :
    (handleSubAgentToolResult (Parsed.ok d) s).toolStates =
      match getVal d.id s.toolStates with
      | some st =>
          setVal d.id { st with status := ToolStatus.complete, result := some d.content } s.toolStates
      | none => s.toolStates := by
  cases hts : getVal d.id s.toolStates <;>
    simp [handleSubAgentToolResult, hts, stopToolsLive, printToolComplete, updateToolsLive_eq]

theorem pendingResults_handleSubAgentToolResult_ok (d : ToolResultData) (s : HandlerState) :
    (handleSubAgentToolResult (Parsed.ok d) s).pendingResults =
      match getVal d.id s.toolStates with
      | some _ => s.pendingResults
      | none => setVal d.id d.content s.pendingResults := by
  cases hts : getVal d.id s.toolStates <;>
    simp [handleSubAgentToolResult, hts, stopToolsLive, printToolComplete, updateToolsLive_eq]

/-! ### Further association-list lemmas -/

theorem getVal_delVal_ne {α : Type} {k kk : String} (h : kk ≠ k) (l : List (String × α)) :
    getVal k (delVal kk l) = getVal k l := by
  induction l with
  | nil => rfl
  | cons hd tl ih =>
    obtain ⟨k₂, v₂⟩ := hd
    by_cases hk : k₂ = kk
    · subst hk
      simp [delVal, getVal, h]
    · by_cases h2 : k₂ = k <;> simp [delVal, getVal, hk, h2, ih, Ne.symm h]

theorem getVal_delVal_self_of_nodup {α : Type} {k : String} {l : List (String × α)}
    (h : (l.map Prod.fst).Nodup) : getVal k (delVal k l) = none := by
  induction l with
  | nil => rfl
  | cons hd tl ih =>
    obtain ⟨k₂, v₂⟩ := hd
    rw [List.map_cons, List.nodup_cons] at h
    by_cases hk : k₂ = k
    · subst hk
      rw [delVal, if_pos rfl]
      exact getVal_none_of_not_mem h.1
    · rw [delVal, if_neg hk, getVal, if_neg hk]
      exact ih h.2

theorem mem_keys_setVal {α : Type} {x k : String} (v : α) (l : List (String × α)) :
    x ∈ (setVal k v l).map Prod.fst ↔ x = k ∨ x ∈ l.map Prod.fst := by
  induction l with
  | nil => simp [setVal]
  | cons hd tl ih =>
    obtain ⟨k₂, v₂⟩ := hd
    by_cases hk : k₂ = k
    · subst hk
      rw [setVal, if_pos rfl]
      simp only [List.map_cons, List.mem_cons]
      tauto
    · rw [setVal, if_neg hk]
      simp only [List.map_cons, List.mem_cons, ih]
      tauto

theorem nodup_keys_setVal {α : Type} (k : String) (v : α) {l : List (String × α)}
    (h : (l.map Prod.fst).Nodup) : ((setVal k v l).map Prod.fst).Nodup := by
  induction l with
  | nil => simp [setVal]
  | cons hd tl ih =>
    obtain ⟨k₂, v₂⟩ := hd
    rw [List.map_cons, List.nodup_cons] at h
    by_cases hk : k₂ = k
    · subst hk
      rw [setVal, if_pos rfl, List.map_cons, List.nodup_cons]
      exact ⟨h.1, h.2⟩
    · rw [setVal, if_neg hk, List.map_cons, List.nodup_cons]
      refine ⟨?_, ih h.2⟩
      rw [mem_keys_setVal]
      push_neg
      exact ⟨hk, h.1⟩

theorem mem_keys_delVal {α : Type} {x k : String} {l : List (String × α)}
    (h : x ∈ (delVal k l).map Prod.fst) : x ∈ l.map Prod.fst := by
  induction l with
  | nil => simpa [delVal] using h
  | cons hd tl ih =>
    obtain ⟨k₂, v₂⟩ := hd
    by_cases hk : k₂ = k
    · rw [delVal, if_pos hk] at h
      rw [List.map_cons]
      exact List.mem_cons_of_mem _ h
    · rw [delVal, if_neg hk, List.map_cons] at h
      rw [List.map_cons]
      rcases List.mem_cons.mp h with h1 | h2
      · exact List.mem_cons.mpr (Or.inl h1)
      · exact List.mem_cons.mpr (Or.inr (ih h2))

theorem nodup_keys_delVal {α : Type} (k : String) {l : List (String × α)}
    (h : (l.map Prod.fst).Nodup) : ((delVal k l).map Prod.fst).Nodup := by
  induction l with
  | nil => simp [delVal]
  | cons hd tl ih =>
    obtain ⟨k₂, v₂⟩ := hd
    rw [List.map_cons, List.nodup_cons] at h
    by_cases hk : k₂ = k
    · rw [delVal, if_pos hk]
      exact h.2
    · rw [delVal, if_neg hk, List.map_cons, List.nodup_cons]
      exact ⟨fun hm => h.1 (mem_keys_delVal hm), ih h.2⟩

/-! ### Frame facts: which handlers touch the correlation maps -/

theorem maps_handleModelThinking (c : String) (s : HandlerState) :
    (handleModelThinking c s).toolStates = s.toolStates ∧
    (handleModelThinking c s).pendingResults = s.pendingResults := by
  constructor <;>
    simp [handleModelThinking, transitionFromContentState, transitionFromToolState,
      stopToolsLive, stopCurrentLive, updateLive, saveAndClearBuffers_eq,
      apply_ite HandlerState.toolStates, apply_ite HandlerState.pendingResults]

theorem maps_handleModelAnswer (c : String) (s : HandlerState) :
    (handleModelAnswer c s).toolStates = s.toolStates ∧
    (handleModelAnswer c s).pendingResults = s.pendingResults := by
  constructor <;>
    simp [handleModelAnswer, transitionFromContentState, transitionFromToolState,
      stopToolsLive, stopCurrentLive, updateLive, saveAndClearBuffers_eq,
      apply_ite HandlerState.toolStates, apply_ite HandlerState.pendingResults]

theorem maps_handleSubAgentThinking (c sub : String) (s : HandlerState) :
    (handleSubAgentThinking c sub s).toolStates = s.toolStates ∧
    (handleSubAgentThinking c sub s).pendingResults = s.pendingResults := by
  constructor <;>
    simp [handleSubAgentThinking, transitionFromContentState, transitionFromToolState,
      stopToolsLive, stopCurrentLive, updateLive, saveAndClearBuffers_eq,
      apply_ite HandlerState.toolStates, apply_ite HandlerState.pendingResults]

theorem maps_handleSubAgentAnswer (c sub : String) (s : HandlerState) :
    (handleSubAgentAnswer c sub s).toolStates = s.toolStates ∧
    (handleSubAgentAnswer c sub s).pendingResults = s.pendingResults := by
  constructor <;>
    simp [handleSubAgentAnswer, transitionFromContentState, transitionFromToolState,
      stopToolsLive, stopCurrentLive, updateLive, saveAndClearBuffers_eq,
      apply_ite HandlerState.toolStates, apply_ite HandlerState.pendingResults]

theorem maps_handleSubAgentStart (sa task : Option String) (s : HandlerState) :
    (handleSubAgentStart sa task s).toolStates = s.toolStates ∧
    (handleSubAgentStart sa task s).pendingResults = s.pendingResults := by
  constructor <;>
    simp [handleSubAgentStart, stopToolsLive, stopCurrentLive, saveAndClearBuffers_eq,
      apply_ite HandlerState.toolStates, apply_ite HandlerState.pendingResults]

theorem maps_handleSubAgentEnd (c : String) (s : HandlerState) :
    (handleSubAgentEnd c s).toolStates = s.toolStates ∧
    (handleSubAgentEnd c s).pendingResults = s.pendingResults := by
  constructor <;>
    simp [handleSubAgentEnd, stopToolsLive, stopCurrentLive, saveAndClearBuffers_eq,
      apply_ite HandlerState.toolStates, apply_ite HandlerState.pendingResults]

theorem maps_handleError (c : String) (s : HandlerState) :
    (handleError c s).toolStates = s.toolStates ∧
    (handleError c s).pendingResults = s.pendingResults :=
  ⟨rfl, rfl⟩

theorem maps_handleToolCall_malformed (raw : String) (s : HandlerState) :
    (handleToolCall (Parsed.malformed raw) s).toolStates = s.toolStates ∧
    (handleToolCall (Parsed.malformed raw) s).pendingResults = s.pendingResults := by
  constructor <;>
    simp [handleToolCall, stopCurrentLive, saveAndClearBuffers_eq,
      apply_ite HandlerState.toolStates, apply_ite HandlerState.pendingResults]

theorem maps_handleSubAgentToolCall_malformed (raw : String) (s : HandlerState) :
    (handleSubAgentToolCall (Parsed.malformed raw) s).toolStates = s.toolStates ∧
    (handleSubAgentToolCall (Parsed.malformed raw) s).pendingResults = s.pendingResults := by
  constructor <;>
    simp [handleSubAgentToolCall, stopCurrentLive, saveAndClearBuffers_eq,
      apply_ite HandlerState.toolStates, apply_ite HandlerState.pendingResults]

theorem maps_handleToolResult_malformed (raw : String) (s : HandlerState) :
    (handleToolResult (Parsed.malformed raw) s).toolStates = s.toolStates ∧
    (handleToolResult (Parsed.malformed raw) s).pendingResults = s.pendingResults :=
  ⟨rfl, rfl⟩

theorem maps_handleSubAgentToolResult_malformed (raw : String) (s : HandlerState) :
    (handleSubAgentToolResult (Parsed.malformed raw) s).toolStates = s.toolStates ∧
    (handleSubAgentToolResult (Parsed.malformed raw) s).pendingResults = s.pendingResults :=
  ⟨rfl, rfl⟩

/-! ### Trace machinery -/

theorem processEvents_cons (e : Event) (es : List Event) (s : HandlerState) :
    processEvents (e :: es) s = processEvents es (eventStep e s) :=
  rfl

theorem processEvents_append (a b : List Event) (s : HandlerState) :
    processEvents (a ++ b) s = processEvents b (processEvents a s) := by
  simp [processEvents, List.foldl_append]

theorem callCount_append (k : String) (a b : List Event) :
    callCount k (a ++ b) = callCount k a + callCount k b := by
  simp [callCount, List.countP_append]

theorem resultCount_append (k : String) (a b : List Event) :
    resultCount k (a ++ b) = resultCount k a + resultCount k b := by
  simp [resultCount, List.countP_append]

theorem eventStep_frame (k : String) (e : Event) (s : HandlerState)
    (hc : isCallEvent k e = false) (hr : isResultEvent k e = false) :
    getVal k (eventStep e s).toolStates = getVal k s.toolStates ∧
    getVal k (eventStep e s).pendingResults = getVal k s.pendingResults := by
  cases e with
  | modelThinking c =>
    exact ⟨congrArg (getVal k) (maps_handleModelThinking c s).1,
      congrArg (getVal k) (maps_handleModelThinking c s).2⟩
  | modelAnswer c =>
    exact ⟨congrArg (getVal k) (maps_handleModelAnswer c s).1,
      congrArg (getVal k) (maps_handleModelAnswer c s).2⟩
  | subAgentStart sa task =>
    exact ⟨congrArg (getVal k) (maps_handleSubAgentStart sa task s).1,
      congrArg (getVal k) (maps_handleSubAgentStart sa task s).2⟩
  | subAgentEnd c =>
    exact ⟨congrArg (getVal k) (maps_handleSubAgentEnd c s).1,
      congrArg (getVal k) (maps_handleSubAgentEnd c s).2⟩
  | subAgentThinking c sa =>
    exact ⟨congrArg (getVal k) (maps_handleSubAgentThinking c sa s).1,
      congrArg (getVal k) (maps_handleSubAgentThinking c sa s).2⟩
  | subAgentAnswer c sa =>
    exact ⟨congrArg (getVal k) (maps_handleSubAgentAnswer c sa s).1,
      congrArg (getVal k) (maps_handleSubAgentAnswer c sa s).2⟩
  | errorEvent c =>
    exact ⟨congrArg (getVal k) (maps_handleError c s).1,
      congrArg (getVal k) (maps_handleError c s).2⟩
  | ignored => exact ⟨rfl, rfl⟩
  | toolCall p =>
    cases p with
    | malformed raw =>
      exact ⟨congrArg (getVal k) (maps_handleToolCall_malformed raw s).1,
        congrArg (getVal k) (maps_handleToolCall_malformed raw s).2⟩
    | ok d =>
      have hne : d.id ≠ k := by simpa [isCallEvent] using hc
      constructor
      · rw [show eventStep (Event.toolCall (Parsed.ok d)) s = handleToolCall (Parsed.ok d) s
          from rfl, toolStates_handleToolCall_ok]
        cases hpr : getVal d.id s.pendingResults <;>
          simp [getVal_setVal_ne hne]
      · rw [show eventStep (Event.toolCall (Parsed.ok d)) s = handleToolCall (Parsed.ok d) s
          from rfl, pendingResults_handleToolCall_ok]
        cases hpr : getVal d.id s.pendingResults <;>
          simp [getVal_delVal_ne hne]
  | subAgentToolCall p =>
    cases p with
    | malformed raw =>
      exact ⟨congrArg (getVal k) (maps_handleSubAgentToolCall_malformed raw s).1,
        congrArg (getVal k) (maps_handleSubAgentToolCall_malformed raw s).2⟩
    | ok d =>
      have hne : d.id ≠ k := by simpa [isCallEvent] using hc
      constructor
      · rw [show eventStep (Event.subAgentToolCall (Parsed.ok d)) s =
            handleSubAgentToolCall (Parsed.ok d) s from rfl, toolStates_handleSubAgentToolCall_ok]
        cases hpr : getVal d.id s.pendingResults <;>
          simp [getVal_setVal_ne hne]
      · rw [show eventStep (Event.subAgentToolCall (Parsed.ok d)) s =
            handleSubAgentToolCall (Parsed.ok d) s from rfl, pendingResults_handleSubAgentToolCall_ok]
        cases hpr : getVal d.id s.pendingResults <;>
          simp [getVal_delVal_ne hne]
  | toolResult p =>
    cases p with
    | malformed raw =>
      exact ⟨congrArg (getVal k) (maps_handleToolResult_malformed raw s).1,
        congrArg (getVal k) (maps_handleToolResult_malformed raw s).2⟩
    | ok d =>
      have hne : d.id ≠ k := by simpa [isResultEvent] using hr
      constructor
      · rw [show eventStep (Event.toolResult (Parsed.ok d)) s = handleToolResult (Parsed.ok d) s
          from rfl, toolStates_handleToolResult_ok]
        cases hts : getVal d.id s.toolStates <;>
          simp [getVal_setVal_ne hne]
      · rw [show eventStep (Event.toolResult (Parsed.ok d)) s = handleToolResult (Parsed.ok d) s
          from rfl, pendingResults_handleToolResult_ok]
        cases hts : getVal d.id s.toolStates <;>
          simp [getVal_setVal_ne hne]
  | subAgentToolResult p =>
    cases p with
    | malformed raw =>
      exact ⟨congrArg (getVal k) (maps_handleSubAgentToolResult_malformed raw s).1,
        congrArg (getVal k) (maps_handleSubAgentToolResult_malformed raw s).2⟩
    | ok d =>
      have hne : d.id ≠ k := by simpa [isResultEvent] using hr
      constructor
      · rw [show eventStep (Event.subAgentToolResult (Parsed.ok d)) s =
            handleSubAgentToolResult (Parsed.ok d) s from rfl, toolStates_handleSubAgentToolResult_ok]
        cases hts : getVal d.id s.toolStates <;>
          simp [getVal_setVal_ne hne]
      · rw [show eventStep (Event.subAgentToolResult (Parsed.ok d)) s =
            handleSubAgentToolResult (Parsed.ok d) s from rfl, pendingResults_handleSubAgentToolResult_ok]
        cases hts : getVal d.id s.toolStates <;>
          simp [getVal_setVal_ne hne]

theorem processEvents_frame (k : String) (es : List Event) :
    ∀ s : HandlerState,
      (∀ e ∈ es, isCallEvent k e = false ∧ isResultEvent k e = false) →
      getVal k (processEvents es s).toolStates = getVal k s.toolStates := by
  induction es with
  | nil => intro s _; rfl
  | cons e tl ih =>
    intro s h
    rw [processEvents_cons, ih _ (fun e2 he => h e2 (List.mem_cons_of_mem e he)),
      (eventStep_frame k e s (h e (List.mem_cons_self e tl)).1
        (h e (List.mem_cons_self e tl)).2).1]

theorem callCount_singleton (k : String) (e : Event) :
    callCount k [e] = if isCallEvent k e then 1 else 0 := by
  simp [callCount, List.countP_cons]

theorem resultCount_singleton (k : String) (e : Event) :
    resultCount k [e] = if isResultEvent k e then 1 else 0 := by
  simp [resultCount, List.countP_cons]

theorem eventStep_counts_step (k : String) (e : Event) (s : HandlerState) (C R : Nat)
    (H1 : (getVal k s.toolStates).isSome = true → 1 ≤ C)
    (H2 : ∀ rec : ToolState, getVal k s.toolStates = some rec →
      rec.status = ToolStatus.complete → 1 ≤ C ∧ 1 ≤ R)
    (H3 : (getVal k s.pendingResults).isSome = true → 1 ≤ R) :
    ((getVal k (eventStep e s).toolStates).isSome = true → 1 ≤ C + callCount k [e]) ∧
    (∀ rec : ToolState, getVal k (eventStep e s).toolStates = some rec →
      rec.status = ToolStatus.complete → 1 ≤ C + callCount k [e] ∧ 1 ≤ R + resultCount k [e]) ∧
    ((getVal k (eventStep e s).pendingResults).isSome = true → 1 ≤ R + resultCount k [e]) := by
  by_cases hc : isCallEvent k e = true
  · -- a call event for k
    rw [callCount_singleton, resultCount_singleton, if_pos hc]
    have hr : isResultEvent k e = false := by
      cases e <;> simp_all [isCallEvent, isResultEvent]
    rw [if_neg (by simp [hr]), Nat.add_zero]
    have hcache : (getVal k s.pendingResults).isSome = true →
        (getVal k (eventStep e s).pendingResults).isSome = true → True := fun _ _ => trivial
    -- identify the concrete call shape
    cases e with
    | toolCall p =>
      cases p with
      | malformed raw => simp [isCallEvent] at hc
      | ok d =>
        have hid : d.id = k := by simpa [isCallEvent] using hc
        subst hid
        simp only [eventStep]
        rw [toolStates_handleToolCall_ok, pendingResults_handleToolCall_ok]
        cases hpr : getVal d.id s.pendingResults with
        | none =>
          refine ⟨fun _ => by omega, ?_, ?_⟩
          · intro rec hrec hst
            rw [getVal_setVal_self] at hrec
            cases hrec
            cases hst
          · intro h
            exact (H3 h).trans (by omega)
        | some cached =>
          refine ⟨fun _ => by omega, ?_, ?_⟩
          · intro rec _ _
            exact ⟨by omega, H3 (by rw [hpr]; rfl)⟩
          · intro _
            exact H3 (by rw [hpr]; rfl)
    | subAgentToolCall p =>
      cases p with
      | malformed raw => simp [isCallEvent] at hc
      | ok d =>
        have hid : d.id = k := by simpa [isCallEvent] using hc
        subst hid
        simp only [eventStep]
        rw [toolStates_handleSubAgentToolCall_ok, pendingResults_handleSubAgentToolCall_ok]
        cases hpr : getVal d.id s.pendingResults with
        | none =>
          refine ⟨fun _ => by omega, ?_, ?_⟩
          · intro rec hrec hst
            rw [getVal_setVal_self] at hrec
            cases hrec
            cases hst
          · intro h
            exact (H3 h).trans (by omega)
        | some cached =>
          refine ⟨fun _ => by omega, ?_, ?_⟩
          · intro rec _ _
            exact ⟨by omega, H3 (by rw [hpr]; rfl)⟩
          · intro _
            exact H3 (by rw [hpr]; rfl)
    | modelThinking c => simp [isCallEvent] at hc
    | modelAnswer c => simp [isCallEvent] at hc
    | toolResult p => simp [isCallEvent] at hc
    | subAgentStart sa task => simp [isCallEvent] at hc
    | subAgentEnd c => simp [isCallEvent] at hc
    | subAgentThinking c sa => simp [isCallEvent] at hc
    | subAgentAnswer c sa => simp [isCallEvent] at hc
    | subAgentToolResult p => simp [isCallEvent] at hc
    | errorEvent c => simp [isCallEvent] at hc
    | ignored => simp [isCallEvent] at hc
  · by_cases hr : isResultEvent k e = true
    · -- a result event for k
      rw [callCount_singleton, resultCount_singleton, if_pos hr,
        if_neg (by simp_all), Nat.add_zero]
      cases e with
      | toolResult p =>
        cases p with
        | malformed raw => simp [isResultEvent] at hr
        | ok d =>
          have hid : d.id = k := by simpa [isResultEvent] using hr
          subst hid
          simp only [eventStep]
          rw [toolStates_handleToolResult_ok, pendingResults_handleToolResult_ok]
          cases hts : getVal d.id s.toolStates with
          | none =>
            refine ⟨?_, ?_, fun _ => by omega⟩
            · intro h
              rw [hts] at h
              cases h
            · intro rec hrec
              rw [hts] at hrec
              cases hrec
          | some st =>
            refine ⟨?_, ?_, fun _ => by omega⟩
            · intro _
              exact H1 (by rw [hts]; rfl)
            · intro rec _ _
              exact ⟨H1 (by rw [hts]; rfl), by omega⟩
      | subAgentToolResult p =>
        cases p with
        | malformed raw => simp [isResultEvent] at hr
        | ok d =>
          have hid : d.id = k := by simpa [isResultEvent] using hr
          subst hid
          simp only [eventStep]
          rw [toolStates_handleSubAgentToolResult_ok, pendingResults_handleSubAgentToolResult_ok]
          cases hts : getVal d.id s.toolStates with
          | none =>
            refine ⟨?_, ?_, fun _ => by omega⟩
            · intro h
              rw [hts] at h
              cases h
            · intro rec hrec
              rw [hts] at hrec
              cases hrec
          | some st =>
            refine ⟨?_, ?_, fun _ => by omega⟩
            · intro _
              exact H1 (by rw [hts]; rfl)
            · intro rec _ _
              exact ⟨H1 (by rw [hts]; rfl), by omega⟩
      | modelThinking c => simp [isResultEvent] at hr
      | modelAnswer c => simp [isResultEvent] at hr
      | toolCall p => simp [isResultEvent] at hr
      | subAgentStart sa task => simp [isResultEvent] at hr
      | subAgentEnd c => simp [isResultEvent] at hr
      | subAgentThinking c sa => simp [isResultEvent] at hr
      | subAgentAnswer c sa => simp [isResultEvent] at hr
      | subAgentToolCall p => simp [isResultEvent] at hr
      | errorEvent c => simp [isResultEvent] at hr
      | ignored => simp [isResultEvent] at hr
    · -- neither: frame step
      have hcf : isCallEvent k e = false := by simpa using hc
      have hrf : isResultEvent k e = false := by simpa using hr
      have hf := eventStep_frame k e s hcf hrf
      rw [callCount_singleton, resultCount_singleton, if_neg (by simp [hcf]),
        if_neg (by simp [hrf]), Nat.add_zero, Nat.add_zero, hf.1, hf.2]
      exact ⟨H1, H2, H3⟩

theorem reach_counts_invariant (k : String) (es : List Event) :
    ((getVal k (processEvents es initialState).toolStates).isSome = true → 1 ≤ callCount k es) ∧
    (∀ rec : ToolState, getVal k (processEvents es initialState).toolStates = some rec →
      rec.status = ToolStatus.complete → 1 ≤ callCount k es ∧ 1 ≤ resultCount k es) ∧
    ((getVal k (processEvents es initialState).pendingResults).isSome = true →
      1 ≤ resultCount k es) := by
  induction es using List.reverseRecOn with
  | nil =>
    refine ⟨?_, ?_, ?_⟩
    · intro h
      simp [processEvents, initialState, getVal] at h
    · intro rec hrec
      simp [processEvents, initialState, getVal] at hrec
    · intro h
      simp [processEvents, initialState, getVal] at h
  | append_singleton es e ih =>
    rw [processEvents_append, callCount_append, resultCount_append]
    exact eventStep_counts_step k e (processEvents es initialState)
      (callCount k es) (resultCount k es) ih.1 ih.2.1 ih.2.2

theorem eventStep_nodup (e : Event) (s : HandlerState)
    (h1 : (s.toolStates.map Prod.fst).Nodup) (h2 : (s.pendingResults.map Prod.fst).Nodup) :
    ((eventStep e s).toolStates.map Prod.fst).Nodup ∧
    ((eventStep e s).pendingResults.map Prod.fst).Nodup := by
  cases e with
  | modelThinking c =>
    rw [show eventStep (Event.modelThinking c) s = handleModelThinking c s from rfl,
      (maps_handleModelThinking c s).1, (maps_handleModelThinking c s).2]
    exact ⟨h1, h2⟩
  | modelAnswer c =>
    rw [show eventStep (Event.modelAnswer c) s = handleModelAnswer c s from rfl,
      (maps_handleModelAnswer c s).1, (maps_handleModelAnswer c s).2]
    exact ⟨h1, h2⟩
  | subAgentStart sa task =>
    rw [show eventStep (Event.subAgentStart sa task) s = handleSubAgentStart sa task s from rfl,
      (maps_handleSubAgentStart sa task s).1, (maps_handleSubAgentStart sa task s).2]
    exact ⟨h1, h2⟩
  | subAgentEnd c =>
    rw [show eventStep (Event.subAgentEnd c) s = handleSubAgentEnd c s from rfl,
      (maps_handleSubAgentEnd c s).1, (maps_handleSubAgentEnd c s).2]
    exact ⟨h1, h2⟩
  | subAgentThinking c sa =>
    rw [show eventStep (Event.subAgentThinking c sa) s = handleSubAgentThinking c sa s from rfl,
      (maps_handleSubAgentThinking c sa s).1, (maps_handleSubAgentThinking c sa s).2]
    exact ⟨h1, h2⟩
  | subAgentAnswer c sa =>
    rw [show eventStep (Event.subAgentAnswer c sa) s = handleSubAgentAnswer c sa s from rfl,
      (maps_handleSubAgentAnswer c sa s).1, (maps_handleSubAgentAnswer c sa s).2]
    exact ⟨h1, h2⟩
  | errorEvent c => exact ⟨h1, h2⟩
  | ignored => exact ⟨h1, h2⟩
  | toolCall p =>
    cases p with
    | malformed raw =>
      rw [show eventStep (Event.toolCall (Parsed.malformed raw)) s =
          handleToolCall (Parsed.malformed raw) s from rfl,
        (maps_handleToolCall_malformed raw s).1, (maps_handleToolCall_malformed raw s).2]
      exact ⟨h1, h2⟩
    | ok d =>
      rw [show eventStep (Event.toolCall (Parsed.ok d)) s = handleToolCall (Parsed.ok d) s
          from rfl, toolStates_handleToolCall_ok, pendingResults_handleToolCall_ok]
      cases hpr : getVal d.id s.pendingResults
      · exact ⟨nodup_keys_setVal _ _ h1, h2⟩
      · exact ⟨nodup_keys_setVal _ _ (nodup_keys_setVal _ _ h1), nodup_keys_delVal _ h2⟩
  | subAgentToolCall p =>
    cases p with
    | malformed raw =>
      rw [show eventStep (Event.subAgentToolCall (Parsed.malformed raw)) s =
          handleSubAgentToolCall (Parsed.malformed raw) s from rfl,
        (maps_handleSubAgentToolCall_malformed raw s).1,
        (maps_handleSubAgentToolCall_malformed raw s).2]
      exact ⟨h1, h2⟩
    | ok d =>
      rw [show eventStep (Event.subAgentToolCall (Parsed.ok d)) s =
          handleSubAgentToolCall (Parsed.ok d) s from rfl,
        toolStates_handleSubAgentToolCall_ok, pendingResults_handleSubAgentToolCall_ok]
      cases hpr : getVal d.id s.pendingResults
      · exact ⟨nodup_keys_setVal _ _ h1, h2⟩
      · exact ⟨nodup_keys_setVal _ _ (nodup_keys_setVal _ _ h1), nodup_keys_delVal _ h2⟩
  | toolResult p =>
    cases p with
    | malformed raw => exact ⟨h1, h2⟩
    | ok d =>
      rw [show eventStep (Event.toolResult (Parsed.ok d)) s = handleToolResult (Parsed.ok d) s
          from rfl, toolStates_handleToolResult_ok, pendingResults_handleToolResult_ok]
      cases hts : getVal d.id s.toolStates
      · exact ⟨h1, nodup_keys_setVal _ _ h2⟩
      · exact ⟨nodup_keys_setVal _ _ h1, h2⟩
  | subAgentToolResult p =>
    cases p with
    | malformed raw => exact ⟨h1, h2⟩
    | ok d =>
      rw [show eventStep (Event.subAgentToolResult (Parsed.ok d)) s =
          handleSubAgentToolResult (Parsed.ok d) s from rfl,
        toolStates_handleSubAgentToolResult_ok, pendingResults_handleSubAgentToolResult_ok]
      cases hts : getVal d.id s.toolStates
      · exact ⟨h1, nodup_keys_setVal _ _ h2⟩
      · exact ⟨nodup_keys_setVal _ _ h1, h2⟩

theorem processEvents_nodup (es : List Event) :
    ∀ s : HandlerState,
      (s.toolStates.map Prod.fst).Nodup → (s.pendingResults.map Prod.fst).Nodup →
      ((processEvents es s).toolStates.map Prod.fst).Nodup ∧
      ((processEvents es s).pendingResults.map Prod.fst).Nodup := by
  induction es with
  | nil => intro s h1 h2; exact ⟨h1, h2⟩
  | cons e tl ih =>
    intro s h1 h2
    rw [processEvents_cons]
    have hstep := eventStep_nodup e s h1 h2
    exact ih _ hstep.1 hstep.2

/-! ### Claims -/

/-- C2: a flush never invokes the persistence sink for an empty buffer,
invokes it exactly once per non-empty buffer with the concatenation of the
accumulated fragments in arrival order as one unit, clears the buffers, and
an immediately repeated flush performs no further sink write. -/
theorem flush_writes_each_nonempty_buffer_once (tt ty : String) (s : HandlerState) :
    saveAndClearBuffers tt ty s =
      { s with thinkingBuffer := [], answerBuffer := [],
               sink := s.sink ++ flushWrites tt ty s } ∧
    (s.thinkingBuffer = [] → s.answerBuffer = [] → saveAndClearBuffers tt ty s = s) ∧
    saveAndClearBuffers tt ty (saveAndClearBuffers tt ty s) = saveAndClearBuffers tt ty s := by
  refine ⟨saveAndClearBuffers_eq tt ty s, ?_, ?_⟩
  · intro h1 h2
    exact saveAndClearBuffers_of_empty tt ty s h1 h2
  · rw [saveAndClearBuffers_eq tt ty s]
    exact saveAndClearBuffers_of_empty tt ty _ rfl rfl

/-- Witness for C2 at a concrete state. -/
theorem flush_writes_each_nonempty_buffer_once_witness :
    saveAndClearBuffers "think" "answer" initialState = initialState :=
  (flush_writes_each_nonempty_buffer_once "think" "answer" initialState).2.1 rfl rfl

/-- C8: the dispatcher leaves the whole handler state (tool records, cache,
buffers, phase, live regions) unchanged and produces no console or sink
output for a None response, a missing type tag, or a type tag outside the
eleven recognized event types. -/
theorem dispatcher_ignores_unknown_events :
    (∀ s : HandlerState, handleResponse none s = s) ∧
    (∀ (s : HandlerState) (r : RawResponse), r.typeTag = none → handleResponse (some r) s = s) ∧
    (∀ (s : HandlerState) (r : RawResponse) (t : String), r.typeTag = some t →
      t ∉ ["model_thinking", "model_answer", "tool_call", "tool_result", "sub_agent_start",
           "sub_agent_end", "sub_agent_thinking", "sub_agent_answer", "sub_agent_tool_call",
           "sub_agent_tool_result", "error"] →
      handleResponse (some r) s = s) := by
  refine ⟨fun s => rfl, ?_, ?_⟩
  · intro s r h
    simp [handleResponse, h]
  · intro s r t h hn
    simp only [List.mem_cons, List.mem_singleton, not_or] at hn
    obtain ⟨n1, n2, n3, n4, n5, n6, n7, n8, n9, n10, n11, -⟩ := hn
    simp only [handleResponse, h]
    split_ifs <;> rfl

/-- Witness for C8: a response with an unrecognized tag and one with a
missing tag are both ignored. -/
theorem dispatcher_ignores_unknown_events_witness :
    handleResponse (some { typeTag := some "mystery_event", content := "x", subagent := none,
                           task := none, toolCallView := Parsed.malformed "x",
                           toolResultView := Parsed.malformed "x",
                           subToolCallView := Parsed.malformed "x" }) initialState = initialState ∧
    handleResponse (some { typeTag := none, content := "x", subagent := none,
                           task := none, toolCallView := Parsed.malformed "x",
                           toolResultView := Parsed.malformed "x",
                           subToolCallView := Parsed.malformed "x" }) initialState = initialState :=
  ⟨dispatcher_ignores_unknown_events.2.2 initialState _ "mystery_event" rfl (by decide),
   dispatcher_ignores_unknown_events.2.1 initialState _ rfl⟩

/-- C10: the read_image local-file branch is confined to the workspace: path
resolution either yields a path inside the resolved workspace or raises
PermissionError; leading slash and backslash characters are stripped so such
paths resolve relative to the workspace; and any successfully returned
local-file content was read from a path inside the workspace (escapes via
parent segments are rejected before any read). -/
theorem read_image_workspace_sandbox :
    (∀ (ws : List String) (path : String),
      (∃ p, resolvePath ws path = Except.ok p ∧ ws.isPrefixOf p = true) ∨
      (∃ m, resolvePath ws path = Except.error (ImgErr.permissionError m))) ∧
    (∀ path : String,
      stripLeadingSlashes ("/" ++ path) = stripLeadingSlashes path ∧
      stripLeadingSlashes ("\\" ++ path) = stripLeadingSlashes path) ∧
    (∀ (fs : FileSys) (ws : List String) (pathOrUrl prompt mt : String) (data : List Nat),
      readImage fs ws pathOrUrl prompt = Except.ok (ImageContent.base64Image prompt mt data) →
      ∃ p, resolvePath ws pathOrUrl = Except.ok p ∧ ws.isPrefixOf p = true ∧
        data = fs.readBytes p) := by
  refine ⟨?_, ?_, ?_⟩
  · intro ws path
    simp only [resolvePath]
    split_ifs with hc
    · exact Or.inl ⟨_, rfl, hc⟩
    · exact Or.inr ⟨_, rfl⟩
  · intro path
    constructor <;> rfl
  · intro fs ws pathOrUrl prompt mt data h
    unfold readImage at h
    split_ifs at h with hurl
    · cases h
    · cases hres : resolvePath ws pathOrUrl with
      | error e =>
        rw [hres] at h
        cases e <;> cases h
      | ok fp =>
        rw [hres] at h
        dsimp only at h
        split_ifs at h with h1 h2 h3
        all_goals try cases h
        all_goals exact ⟨fp, rfl, resolvePath_ok_prefix hres, rfl⟩

/-- Witness for C10: a plain relative path resolves inside the workspace and
its bytes are read from the resolved location. -/
theorem read_image_workspace_sandbox_witness :
    ∃ p, resolvePath ["home", "ws"] "img.png" = Except.ok p ∧
      ["home", "ws"].isPrefixOf p = true ∧
      [7, 8, 9] = FileSys.readBytes
        { pathExists := fun q => q == ["home", "ws", "img.png"],
          isFile := fun q => q == ["home", "ws", "img.png"],
          readBytes := fun _ => [7, 8, 9],
          guessMime := fun _ => some "image/png" } p :=
  read_image_workspace_sandbox.2.2
    { pathExists := fun q => q == ["home", "ws", "img.png"],
      isFile := fun q => q == ["home", "ws", "img.png"],
      readBytes := fun _ => [7, 8, 9],
      guessMime := fun _ => some "image/png" }
    ["home", "ws"] "img.png" "describe" "image/png" [7, 8, 9] rfl

/-- C1: tool-call correlation is order-independent.  For an id that is
fresh (no record, no cached result), processing the call event and the
result event in either order leaves the record for that id Complete with
the same name, pretty-printed arguments and result text, and the pending
result cache does not contain the id; this covers all four combinations of
top-level and sub-agent call/result events (the subLabel argument selects
the call flavour, subResult the result flavour). -/
theorem tool_correlation_order_independent
    (s : HandlerState) (k nm ar res : String) (subLabel : Option String) (subResult : Bool)
    (hts : getVal k s.toolStates = none) (hpr : getVal k s.pendingResults = none) :
    getVal k (resStepOf k res subResult (callStepOf k nm ar subLabel s)).toolStates =
        some ⟨nm, ar, ToolStatus.complete, some res, subLabel⟩ ∧
    getVal k (callStepOf k nm ar subLabel (resStepOf k res subResult s)).toolStates =
        some ⟨nm, ar, ToolStatus.complete, some res, subLabel⟩ ∧
    getVal k (resStepOf k res subResult (callStepOf k nm ar subLabel s)).pendingResults = none ∧
    getVal k (callStepOf k nm ar subLabel (resStepOf k res subResult s)).pendingResults = none := by
  have hcallTS : ∀ t : HandlerState, getVal k t.pendingResults = none →
      getVal k (callStepOf k nm ar subLabel t).toolStates =
        some ⟨nm, ar, ToolStatus.pending, none, subLabel⟩ := by
    intro t ht
    cases subLabel <;>
      simp [callStepOf, toolStates_handleToolCall_ok, toolStates_handleSubAgentToolCall_ok, ht,
        getVal_setVal_self]
  have hcallPR : ∀ t : HandlerState, getVal k t.pendingResults = none →
      getVal k (callStepOf k nm ar subLabel t).pendingResults = none := by
    intro t ht
    cases subLabel <;>
      simp [callStepOf, pendingResults_handleToolCall_ok,
        pendingResults_handleSubAgentToolCall_ok, ht]
  have hresTS : ∀ (t : HandlerState) (st : ToolState), getVal k t.toolStates = some st →
      getVal k (resStepOf k res subResult t).toolStates =
        some { st with status := ToolStatus.complete, result := some res } := by
    intro t st ht
    cases subResult <;>
      simp [resStepOf, toolStates_handleToolResult_ok, toolStates_handleSubAgentToolResult_ok, ht,
        getVal_setVal_self]
  have hresPR : ∀ (t : HandlerState) (st : ToolState), getVal k t.toolStates = some st →
      (resStepOf k res subResult t).pendingResults = t.pendingResults := by
    intro t st ht
    cases subResult <;>
      simp [resStepOf, pendingResults_handleToolResult_ok,
        pendingResults_handleSubAgentToolResult_ok, ht]
  have hresCacheTS : ∀ t : HandlerState, getVal k t.toolStates = none →
      (resStepOf k res subResult t).toolStates = t.toolStates := by
    intro t ht
    cases subResult <;>
      simp [resStepOf, toolStates_handleToolResult_ok, toolStates_handleSubAgentToolResult_ok, ht]
  have hresCachePR : ∀ t : HandlerState, getVal k t.toolStates = none →
      (resStepOf k res subResult t).pendingResults = setVal k res t.pendingResults := by
    intro t ht
    cases subResult <;>
      simp [resStepOf, pendingResults_handleToolResult_ok,
        pendingResults_handleSubAgentToolResult_ok, ht]
  have hcallCacheTS : ∀ t : HandlerState, getVal k t.pendingResults = some res →
      getVal k (callStepOf k nm ar subLabel t).toolStates =
        some ⟨nm, ar, ToolStatus.complete, some res, subLabel⟩ := by
    intro t ht
    cases subLabel <;>
      simp [callStepOf, toolStates_handleToolCall_ok, toolStates_handleSubAgentToolCall_ok, ht,
        getVal_setVal_self]
  have hcallCachePR : ∀ t : HandlerState, getVal k t.pendingResults = some res →
      (callStepOf k nm ar subLabel t).pendingResults = delVal k t.pendingResults := by
    intro t ht
    cases subLabel <;>
      simp [callStepOf, pendingResults_handleToolCall_ok,
        pendingResults_handleSubAgentToolCall_ok, ht]
  refine ⟨?_, ?_, ?_, ?_⟩
  · exact hresTS _ _ (hcallTS s hpr)
  · exact hcallCacheTS _ (by rw [hresCachePR s hts, getVal_setVal_self])
  · rw [hresPR _ _ (hcallTS s hpr), hcallPR s hpr]
  · rw [hcallCachePR _ (by rw [hresCachePR s hts, getVal_setVal_self]),
      hresCachePR s hts, delVal_setVal_of_getVal_none hpr]
    exact hpr

/-- Witness for C1: a concrete fresh id correlated in both orders. -/
theorem tool_correlation_order_independent_witness :
    getVal "7" ((handleToolResult (Parsed.ok ⟨"7", "42"⟩)
        (handleToolCall (Parsed.ok ⟨"7", "calc", "expr: 6x7"⟩) initialState)).toolStates) =
      some ⟨"calc", "expr: 6x7", ToolStatus.complete, some "42", none⟩ ∧
    getVal "7" ((handleToolCall (Parsed.ok ⟨"7", "calc", "expr: 6x7"⟩)
        (handleToolResult (Parsed.ok ⟨"7", "42"⟩) initialState)).toolStates) =
      some ⟨"calc", "expr: 6x7", ToolStatus.complete, some "42", none⟩ ∧
    getVal "7" ((handleToolResult (Parsed.ok ⟨"7", "42"⟩)
        (handleToolCall (Parsed.ok ⟨"7", "calc", "expr: 6x7"⟩) initialState)).pendingResults) = none ∧
    getVal "7" ((handleToolCall (Parsed.ok ⟨"7", "calc", "expr: 6x7"⟩)
        (handleToolResult (Parsed.ok ⟨"7", "42"⟩) initialState)).pendingResults) = none :=
  tool_correlation_order_independent initialState "7" "calc" "expr: 6x7" "42" none false
    rfl rfl

/-- C9 (amended): a malformed tool-call or tool-result payload prints an
error panel and leaves the tool record map and the pending-result cache
unchanged, and processing continues; however the current phase is still set
to the tool phase, and a malformed tool-call event arriving from a non-tool
phase while a content live region is active still flushes and clears the
buffers and tears the content region down before the parse is attempted. -/
theorem malformed_tool_json_amended (s : HandlerState) (raw : String) :
    handleToolCall (Parsed.malformed raw) s =
      (let s1 :=
        if (s.currentState ≠ some "tool_call" ∧ s.currentState ≠ some "tool_result") ∧
            s.currentLive then
          { s with thinkingBuffer := [], answerBuffer := [], currentLive := false,
                   sink := s.sink ++ flushWrites "think" "answer" s }
        else s
      { s1 with currentState := some "tool_call",
                console := s1.console ++
                  [ConsoleOut.parseErrorPanel ("Error parsing tool call: " ++ raw)] }) ∧
    handleToolResult (Parsed.malformed raw) s =
      { s with currentState := some "tool_result",
               console := s.console ++
                 [ConsoleOut.parseErrorPanel ("Error parsing tool result: " ++ raw)] } := by
  constructor
  · show handleToolCall (Parsed.malformed raw) s = _
    simp only [handleToolCall, saveAndClearBuffers_eq, stopCurrentLive]
    split_ifs with c1 c2 <;> simp_all
  · rfl

/-- Counterexample to C9 as stated: a malformed tool-call payload arriving
during the model_answer phase does alter state beyond the error panel: it
changes the current phase, clears the answer buffer, tears down the content
live region, and performs a sink write. -/
theorem malformed_tool_json_counterexample :
    (handleModelAnswer "hi" initialState).currentState = some "model_answer" ∧
    (handleModelAnswer "hi" initialState).answerBuffer = ["hi"] ∧
    (handleModelAnswer "hi" initialState).currentLive = true ∧
    (handleModelAnswer "hi" initialState).sink = [] ∧
    (handleToolCall (Parsed.malformed "oops") (handleModelAnswer "hi" initialState)).currentState =
      some "tool_call" ∧
    (handleToolCall (Parsed.malformed "oops") (handleModelAnswer "hi" initialState)).answerBuffer = [] ∧
    (handleToolCall (Parsed.malformed "oops") (handleModelAnswer "hi" initialState)).currentLive = false ∧
    (handleToolCall (Parsed.malformed "oops") (handleModelAnswer "hi" initialState)).sink =
      [SinkWrite.textContent "answer" "hi"] := by
  decide

/-- Witness for C9 at a concrete state in a tool phase (no flush occurs,
only the panel and the phase change). -/
theorem malformed_tool_json_amended_witness :
    handleToolCall (Parsed.malformed "bad payload") initialState =
      { initialState with currentState := some "tool_call",
                          console := [ConsoleOut.parseErrorPanel "Error parsing tool call: bad payload"] } ∧
    handleToolResult (Parsed.malformed "bad payload") initialState =
      { initialState with currentState := some "tool_result",
                          console := [ConsoleOut.parseErrorPanel "Error parsing tool result: bad payload"] } := by
  have h := malformed_tool_json_amended initialState "bad payload"
  refine ⟨?_, ?_⟩
  · rw [h.1]
    decide
  · rw [h.2]
    decide

/-- C6: the moment a record becomes Complete (a result matching an existing
record, in either flavour, or a call finding a cached early result), a
permanent completion panel with the name, the arguments and the result
truncated to its first 1000 characters (marker appended past the cap) is
printed, and a tool_call record with the name and arguments is persisted in
the same step, for every handler state (hence regardless of other pending
tools) and independently of the buffer flush cycle. -/
theorem tool_completion_prints_and_persists :
    (∀ (d : ToolResultData) (s : HandlerState) (st : ToolState),
      getVal d.id s.toolStates = some st →
      (handleToolResult (Parsed.ok d) s).console =
        s.console ++ [ConsoleOut.toolCompletePanel (nameDisplayOf st) st.argsStr
          (truncateToolResult d.content)] ∧
      (handleToolResult (Parsed.ok d) s).sink =
        s.sink ++ [SinkWrite.toolCallRecord st.name st.argsStr]) ∧
    (∀ (d : ToolResultData) (s : HandlerState) (st : ToolState),
      getVal d.id s.toolStates = some st →
      (handleSubAgentToolResult (Parsed.ok d) s).console =
        s.console ++ [ConsoleOut.toolCompletePanel (nameDisplayOf st) st.argsStr
          (truncateToolResult d.content)] ∧
      (handleSubAgentToolResult (Parsed.ok d) s).sink =
        s.sink ++ [SinkWrite.toolCallRecord st.name st.argsStr]) ∧
    (∀ (d : ToolCallData) (s : HandlerState) (cached : String),
      getVal d.id s.pendingResults = some cached →
      (handleToolCall (Parsed.ok d) s).console =
        s.console ++ [ConsoleOut.toolCompletePanel d.name d.argsStr (truncateToolResult cached)] ∧
      (handleToolCall (Parsed.ok d) s).sink =
        s.sink ++ preToolCallWrites s ++ [SinkWrite.toolCallRecord d.name d.argsStr]) ∧
    (∀ (d : SubToolCallData) (s : HandlerState) (cached : String),
      getVal d.id s.pendingResults = some cached →
      (handleSubAgentToolCall (Parsed.ok d) s).console =
        s.console ++ [ConsoleOut.toolCompletePanel ("[" ++ d.subagent ++ "] " ++ d.name)
          d.argsStr (truncateToolResult cached)] ∧
      (handleSubAgentToolCall (Parsed.ok d) s).sink =
        s.sink ++ preSubToolCallWrites s ++ [SinkWrite.toolCallRecord d.name d.argsStr]) ∧
    (∀ r : String,
      truncateToolResult r =
        if 1000 < r.length then strTake r 1000 ++ "\n... (truncated)" else r) := by
  refine ⟨?_, ?_, ?_, ?_, fun r => rfl⟩
  · intro d s st h
    obtain ⟨nm, ar, stt, res, sub⟩ := st
    cases sub <;>
      simp [handleToolResult, h, printToolComplete, stopToolsLive, updateToolsLive_eq,
        nameDisplayOf]
  · intro d s st h
    obtain ⟨nm, ar, stt, res, sub⟩ := st
    cases sub <;>
      simp [handleSubAgentToolResult, h, printToolComplete, stopToolsLive, updateToolsLive_eq,
        nameDisplayOf]
  · intro d s cached h
    simp only [handleToolCall, saveAndClearBuffers_eq, stopCurrentLive]
    split_ifs with c1 c2
    · simp [h, printToolComplete, stopToolsLive, nameDisplayOf, preToolCallWrites, c1, c2]
    · simp [h, printToolComplete, stopToolsLive, nameDisplayOf, preToolCallWrites, c1, c2]
    · simp [h, printToolComplete, stopToolsLive, nameDisplayOf, preToolCallWrites, c1]
  · intro d s cached h
    simp only [handleSubAgentToolCall, saveAndClearBuffers_eq, stopCurrentLive]
    split_ifs with c1 c2
    · simp [h, printToolComplete, stopToolsLive, nameDisplayOf, preSubToolCallWrites, c1, c2]
    · simp [h, printToolComplete, stopToolsLive, nameDisplayOf, preSubToolCallWrites, c1, c2]
    · simp [h, printToolComplete, stopToolsLive, nameDisplayOf, preSubToolCallWrites, c1]

/-- Witness for C6: concrete completions through all four completing paths
print the panel and persist the record at once. -/
theorem tool_completion_prints_and_persists_witness :
    ((handleToolResult (Parsed.ok ⟨"1", "out"⟩)
        (handleToolCall (Parsed.ok ⟨"1", "t", "a"⟩) initialState)).console =
      (handleToolCall (Parsed.ok ⟨"1", "t", "a"⟩) initialState).console ++
        [ConsoleOut.toolCompletePanel "t" "a" "out"] ∧
     (handleToolResult (Parsed.ok ⟨"1", "out"⟩)
        (handleToolCall (Parsed.ok ⟨"1", "t", "a"⟩) initialState)).sink =
      (handleToolCall (Parsed.ok ⟨"1", "t", "a"⟩) initialState).sink ++
        [SinkWrite.toolCallRecord "t" "a"]) ∧
    ((handleSubAgentToolResult (Parsed.ok ⟨"3", "out"⟩)
        (handleSubAgentToolCall (Parsed.ok ⟨"3", "n", "a", "lab"⟩) initialState)).console =
      (handleSubAgentToolCall (Parsed.ok ⟨"3", "n", "a", "lab"⟩) initialState).console ++
        [ConsoleOut.toolCompletePanel "[lab] n" "a" "out"]) ∧
    ((handleToolCall (Parsed.ok ⟨"2", "t2", "a2"⟩)
        (handleToolResult (Parsed.ok ⟨"2", "early"⟩) initialState)).console =
      (handleToolResult (Parsed.ok ⟨"2", "early"⟩) initialState).console ++
        [ConsoleOut.toolCompletePanel "t2" "a2" "early"]) ∧
    ((handleSubAgentToolCall (Parsed.ok ⟨"2", "n2", "a2", "lab"⟩)
        (handleToolResult (Parsed.ok ⟨"2", "early"⟩) initialState)).console =
      (handleToolResult (Parsed.ok ⟨"2", "early"⟩) initialState).console ++
        [ConsoleOut.toolCompletePanel "[lab] n2" "a2" "early"]) := by
  refine ⟨?_, ?_, ?_, ?_⟩
  · have h := tool_completion_prints_and_persists.1 ⟨"1", "out"⟩
      (handleToolCall (Parsed.ok ⟨"1", "t", "a"⟩) initialState)
      ⟨"t", "a", ToolStatus.pending, none, none⟩ (by decide)
    exact ⟨h.1.trans (by decide), h.2.trans (by decide)⟩
  · have h := tool_completion_prints_and_persists.2.1 ⟨"3", "out"⟩
      (handleSubAgentToolCall (Parsed.ok ⟨"3", "n", "a", "lab"⟩) initialState)
      ⟨"n", "a", ToolStatus.pending, none, some "lab"⟩ (by decide)
    exact h.1.trans (by decide)
  · have h := tool_completion_prints_and_persists.2.2.1 ⟨"2", "t2", "a2"⟩
      (handleToolResult (Parsed.ok ⟨"2", "early"⟩) initialState) "early" (by decide)
    exact h.1.trans (by decide)
  · have h := tool_completion_prints_and_persists.2.2.2.1 ⟨"2", "n2", "a2", "lab"⟩
      (handleToolResult (Parsed.ok ⟨"2", "early"⟩) initialState) "early" (by decide)
    exact h.1.trans (by decide)

/-- C7 (amended): a SubAgentEnd event with content c tears down both live
regions, prints a completion panel with c truncated to its first 500
characters (marker appended when longer), and persists the full untruncated
c under the sub_agent category; the flush-and-clear of both buffers under
the sub-agent categories happens exactly when a content live region is
active — with no active content region the buffers are left untouched. -/
theorem sub_agent_end_amended (s : HandlerState) (c : String) :
    (s.currentLive = true →
      handleSubAgentEnd c s =
        { s with thinkingBuffer := [], answerBuffer := [], currentLive := false, toolsLive := false,
                 console := s.console ++ [ConsoleOut.subAgentEndPanel (truncateSubAgentResult c)],
                 sink := s.sink ++ flushWrites "sub_agent_think" "sub_agent_answer" s ++
                   [SinkWrite.textContent "sub_agent" c] }) ∧
    (s.currentLive = false →
      handleSubAgentEnd c s =
        { s with currentLive := false, toolsLive := false,
                 console := s.console ++ [ConsoleOut.subAgentEndPanel (truncateSubAgentResult c)],
                 sink := s.sink ++ [SinkWrite.textContent "sub_agent" c] }) ∧
    truncateSubAgentResult c = (if 500 < c.length then strTake c 500 ++ "..." else c) := by
  refine ⟨?_, ?_, rfl⟩
  · intro hl
    simp [handleSubAgentEnd, saveAndClearBuffers_eq, stopCurrentLive, stopToolsLive, hl]
  · intro hl
    simp [handleSubAgentEnd, stopCurrentLive, stopToolsLive, hl]

/-- Counterexample to C7 as stated: after an error event (which tears the
regions down but keeps the buffers) a SubAgentEnd neither flushes nor
clears the thinking buffer — the only sink write is the sub_agent one. -/
theorem sub_agent_end_claim_counterexample :
    (handleError "boom" (handleModelThinking "a" initialState)).thinkingBuffer = ["a"] ∧
    (handleSubAgentEnd "done"
      (handleError "boom" (handleModelThinking "a" initialState))).thinkingBuffer = ["a"] ∧
    (handleSubAgentEnd "done"
      (handleError "boom" (handleModelThinking "a" initialState))).sink =
      [SinkWrite.textContent "sub_agent" "done"] := by
  decide

/-- Witness for C7 at a live sub-agent content state. -/
theorem sub_agent_end_amended_witness :
    handleSubAgentEnd "done" (handleSubAgentThinking "x" "lab" initialState) =
      { handleSubAgentThinking "x" "lab" initialState with
          thinkingBuffer := [], answerBuffer := [], currentLive := false, toolsLive := false,
          console := (handleSubAgentThinking "x" "lab" initialState).console ++
            [ConsoleOut.subAgentEndPanel "done"],
          sink := [SinkWrite.textContent "sub_agent_think" "x",
                   SinkWrite.textContent "sub_agent" "done"] } :=
  (((sub_agent_end_amended (handleSubAgentThinking "x" "lab" initialState) "done").1)
    (by decide)).trans (by decide)

/-- C3 (amended): for a content event (any of the four kinds), when its
phase differs from the current one and a content live region is active, the
transition helper first flushes and clears both buffers under the handler's
categories and tears down the content region (and the tool region when the
previous phase was a tool-activity phase), and the handler equals that
transition followed by entering the new phase, appending the fragment and
re-creating the content region; when the phase differs but no content
region is active, no flush happens — only the tool-region teardown (when
applicable), the phase change and the append; a same-phase event only
appends its fragment (and keeps the content region active). -/
theorem content_phase_transition_amended (k : ContentKind) (c : String) (s : HandlerState) :
    (s.currentState ≠ some (contentPhaseOf k) → s.currentLive = true →
      (transitionFromContentState (contentPhaseOf k) (contentThinkCat k)
          (contentAnswerCat k) s).currentLive = false ∧
      (transitionFromContentState (contentPhaseOf k) (contentThinkCat k)
          (contentAnswerCat k) s).thinkingBuffer = [] ∧
      (transitionFromContentState (contentPhaseOf k) (contentThinkCat k)
          (contentAnswerCat k) s).answerBuffer = [] ∧
      (transitionFromContentState (contentPhaseOf k) (contentThinkCat k)
          (contentAnswerCat k) s).sink =
        s.sink ++ flushWrites (contentThinkCat k) (contentAnswerCat k) s ∧
      (isToolPhase s.currentState = true →
        (transitionFromContentState (contentPhaseOf k) (contentThinkCat k)
          (contentAnswerCat k) s).toolsLive = false) ∧
      contentHandlerOf k c s =
        { transitionFromContentState (contentPhaseOf k) (contentThinkCat k)
            (contentAnswerCat k) s with
            currentState := some (contentPhaseOf k),
            thinkingBuffer :=
              if isThinkingKind k then
                (transitionFromContentState (contentPhaseOf k) (contentThinkCat k)
                  (contentAnswerCat k) s).thinkingBuffer ++ [c]
              else
                (transitionFromContentState (contentPhaseOf k) (contentThinkCat k)
                  (contentAnswerCat k) s).thinkingBuffer,
            answerBuffer :=
              if isThinkingKind k then
                (transitionFromContentState (contentPhaseOf k) (contentThinkCat k)
                  (contentAnswerCat k) s).answerBuffer
              else
                (transitionFromContentState (contentPhaseOf k) (contentThinkCat k)
                  (contentAnswerCat k) s).answerBuffer ++ [c],
            currentLive := true }) ∧
    (s.currentState ≠ some (contentPhaseOf k) → s.currentLive = false →
      contentHandlerOf k c s =
        { s with currentState := some (contentPhaseOf k),
                 toolsLive := if isToolPhase s.currentState then false else s.toolsLive,
                 thinkingBuffer :=
                   if isThinkingKind k then s.thinkingBuffer ++ [c] else s.thinkingBuffer,
                 answerBuffer :=
                   if isThinkingKind k then s.answerBuffer else s.answerBuffer ++ [c],
                 currentLive := true }) ∧
    (s.currentState = some (contentPhaseOf k) →
      contentHandlerOf k c s =
        { s with currentState := some (contentPhaseOf k),
                 thinkingBuffer :=
                   if isThinkingKind k then s.thinkingBuffer ++ [c] else s.thinkingBuffer,
                 answerBuffer :=
                   if isThinkingKind k then s.answerBuffer else s.answerBuffer ++ [c],
                 currentLive := true }) := by
  refine ⟨?_, ?_, ?_⟩
  · intro hne hl
    cases k <;> simp only [contentPhaseOf] at hne <;>
      by_cases ht : isToolPhase s.currentState <;>
        simp [contentPhaseOf, contentThinkCat, contentAnswerCat, isThinkingKind, contentHandlerOf,
          handleModelThinking, handleModelAnswer, handleSubAgentThinking, handleSubAgentAnswer,
          transitionFromContentState, transitionFromToolState, stopToolsLive, stopCurrentLive,
          updateLive, saveAndClearBuffers_eq, ht, hne, hl] <;>
        exact flushWrites_congr _ _ rfl rfl
  · intro hne hl
    cases k <;> simp only [contentPhaseOf] at hne <;>
      by_cases ht : isToolPhase s.currentState <;>
        simp [contentPhaseOf, contentThinkCat, contentAnswerCat, isThinkingKind, contentHandlerOf,
          handleModelThinking, handleModelAnswer, handleSubAgentThinking, handleSubAgentAnswer,
          transitionFromContentState, transitionFromToolState, stopToolsLive, stopCurrentLive,
          updateLive, saveAndClearBuffers_eq, ht, hne, hl]
  · intro heq
    cases k <;> simp only [contentPhaseOf] at heq <;>
      simp [contentPhaseOf, contentThinkCat, contentAnswerCat, isThinkingKind, contentHandlerOf,
        handleModelThinking, handleModelAnswer, handleSubAgentThinking, handleSubAgentAnswer,
        transitionFromContentState, transitionFromToolState, stopToolsLive, stopCurrentLive,
        updateLive, heq, isToolPhase]

/-- Counterexample to C3 as stated: after an error event the live region is
down but the thinking buffer is not empty; a subsequent different-phase
content event (ModelAnswer after a ModelThinking phase) neither flushes nor
clears the buffers. -/
theorem content_phase_transition_claim_counterexample :
    (handleError "boom" (handleModelThinking "a" initialState)).currentState =
      some "model_thinking" ∧
    (handleError "boom" (handleModelThinking "a" initialState)).currentLive = false ∧
    (handleError "boom" (handleModelThinking "a" initialState)).thinkingBuffer = ["a"] ∧
    (handleModelAnswer "b"
      (handleError "boom" (handleModelThinking "a" initialState))).thinkingBuffer = ["a"] ∧
    (handleModelAnswer "b"
      (handleError "boom" (handleModelThinking "a" initialState))).sink = [] := by
  decide

/-- Witness for C3: a different-phase event with an active region does tear
the region down and flush the thinking buffer under think. -/
theorem content_phase_transition_amended_witness :
    (transitionFromContentState "model_answer" "think" "answer"
      (handleModelThinking "a" initialState)).currentLive = false ∧
    (handleModelAnswer "b" (handleModelThinking "a" initialState)).sink =
      [SinkWrite.textContent "think" "a"] := by
  have h := (content_phase_transition_amended ContentKind.modelAnswer "b"
    (handleModelThinking "a" initialState)).1 (by decide) (by decide)
  exact ⟨h.1, (congrArg HandlerState.sink h.2.2.2.2.2).trans (by decide)⟩

/-- C4 (amended): every flush writes under the category pair fixed by the
handler performing it, not by the phase transitioning out: transitions into
sub-agent content phases and the sub-agent end event flush under
sub_agent_think/sub_agent_answer, transitions into top-level content phases
flush under think/answer, and explicit stream finalization always flushes
under think/answer — even when the buffers were accumulated during a
sub-agent content phase. -/
theorem flush_category_fixed_by_handler :
    (∀ s : HandlerState, (finalize s).sink = s.sink ++ flushWrites "think" "answer" s) ∧
    (∀ (c sub : String) (s : HandlerState),
      s.currentState ≠ some "sub_agent_thinking" → s.currentLive = true →
      (handleSubAgentThinking c sub s).sink =
        s.sink ++ flushWrites "sub_agent_think" "sub_agent_answer" s) ∧
    (∀ (c sub : String) (s : HandlerState),
      s.currentState ≠ some "sub_agent_answer" → s.currentLive = true →
      (handleSubAgentAnswer c sub s).sink =
        s.sink ++ flushWrites "sub_agent_think" "sub_agent_answer" s) ∧
    (∀ (c : String) (s : HandlerState),
      s.currentState ≠ some "model_thinking" → s.currentLive = true →
      (handleModelThinking c s).sink = s.sink ++ flushWrites "think" "answer" s) ∧
    (∀ (c : String) (s : HandlerState),
      s.currentState ≠ some "model_answer" → s.currentLive = true →
      (handleModelAnswer c s).sink = s.sink ++ flushWrites "think" "answer" s) ∧
    (∀ (c : String) (s : HandlerState),
      (handleSubAgentEnd c s).sink =
        s.sink ++ (if s.currentLive then flushWrites "sub_agent_think" "sub_agent_answer" s
          else []) ++ [SinkWrite.textContent "sub_agent" c]) := by
  refine ⟨?_, ?_, ?_, ?_, ?_, ?_⟩
  · intro s
    simp [finalize, saveAndClearBuffers_eq, stopCurrentLive, stopToolsLive]
    exact flushWrites_congr _ _ rfl rfl
  · intro c sub s hne hl
    by_cases ht : isToolPhase s.currentState <;>
      simp [handleSubAgentThinking, transitionFromContentState, transitionFromToolState,
        stopToolsLive, stopCurrentLive, updateLive, saveAndClearBuffers_eq, ht, hne, hl] <;>
      exact flushWrites_congr _ _ rfl rfl
  · intro c sub s hne hl
    by_cases ht : isToolPhase s.currentState <;>
      simp [handleSubAgentAnswer, transitionFromContentState, transitionFromToolState,
        stopToolsLive, stopCurrentLive, updateLive, saveAndClearBuffers_eq, ht, hne, hl] <;>
      exact flushWrites_congr _ _ rfl rfl
  · intro c s hne hl
    by_cases ht : isToolPhase s.currentState <;>
      simp [handleModelThinking, transitionFromContentState, transitionFromToolState,
        stopToolsLive, stopCurrentLive, updateLive, saveAndClearBuffers_eq, ht, hne, hl] <;>
      exact flushWrites_congr _ _ rfl rfl
  · intro c s hne hl
    by_cases ht : isToolPhase s.currentState <;>
      simp [handleModelAnswer, transitionFromContentState, transitionFromToolState,
        stopToolsLive, stopCurrentLive, updateLive, saveAndClearBuffers_eq, ht, hne, hl] <;>
      exact flushWrites_congr _ _ rfl rfl
  · intro c s
    by_cases hl : s.currentLive <;>
      simp [handleSubAgentEnd, saveAndClearBuffers_eq, stopCurrentLive, stopToolsLive, hl]

/-- Counterexample to C4 as stated: a buffer accumulated during the
sub-agent thinking phase is flushed by finalize under the top-level think
category, not under sub_agent_think. -/
theorem flush_category_claim_counterexample :
    (handleSubAgentThinking "x" "lab" initialState).currentState = some "sub_agent_thinking" ∧
    (handleSubAgentThinking "x" "lab" initialState).thinkingBuffer = ["x"] ∧
    (finalize (handleSubAgentThinking "x" "lab" initialState)).sink =
      [SinkWrite.textContent "think" "x"] := by
  decide

/-- Witness for C4: conversely, a transition into a sub-agent content phase
flushes a buffer accumulated during a top-level phase under
sub_agent_think. -/
theorem flush_category_fixed_by_handler_witness :
    (handleSubAgentThinking "y" "lab" (handleModelThinking "a" initialState)).sink =
      [SinkWrite.textContent "sub_agent_think" "a"] :=
  (flush_category_fixed_by_handler.2.1 "y" "lab" (handleModelThinking "a" initialState)
    (by decide) (by decide)).trans (by decide)

/-- C5 (amended): within one turn started from the fresh handler state, the
key sets of the tool record map and of the pending result cache stay
duplicate-free (so at most one record — in particular at most one Pending
record — exists per id); provided the turn's events carry at most one call
event and at most one result event for an id, once the record for that id
is Complete it is never modified by the remaining events (without that
proviso a duplicate call or result event does revisit the record); and an
id present in the pending result cache is removed the instant a matching
call event is processed. -/
theorem tool_record_lifecycle_amended :
    (∀ es : List Event,
      ((processEvents es initialState).toolStates.map Prod.fst).Nodup ∧
      ((processEvents es initialState).pendingResults.map Prod.fst).Nodup) ∧
    (∀ (k : String) (es1 es2 : List Event) (rec : ToolState),
      callCount k (es1 ++ es2) ≤ 1 → resultCount k (es1 ++ es2) ≤ 1 →
      getVal k (processEvents es1 initialState).toolStates = some rec →
      rec.status = ToolStatus.complete →
      getVal k (processEvents (es1 ++ es2) initialState).toolStates = some rec) ∧
    (∀ (s : HandlerState) (d : ToolCallData),
      (s.pendingResults.map Prod.fst).Nodup →
      getVal d.id (handleToolCall (Parsed.ok d) s).pendingResults = none) ∧
    (∀ (s : HandlerState) (d : SubToolCallData),
      (s.pendingResults.map Prod.fst).Nodup →
      getVal d.id (handleSubAgentToolCall (Parsed.ok d) s).pendingResults = none) := by
  refine ⟨?_, ?_, ?_, ?_⟩
  · intro es
    exact processEvents_nodup es initialState (by simp [initialState]) (by simp [initialState])
  · intro k es1 es2 rec hc hr hrec hst
    have hinv := (reach_counts_invariant k es1).2.1 rec hrec hst
    rw [callCount_append] at hc
    rw [resultCount_append] at hr
    simp only [callCount, resultCount] at hc hr hinv
    have hc2 : List.countP (isCallEvent k) es2 = 0 := by omega
    have hr2 : List.countP (isResultEvent k) es2 = 0 := by omega
    have hall : ∀ e ∈ es2, isCallEvent k e = false ∧ isResultEvent k e = false := by
      intro e he
      have h1 := List.countP_eq_zero.mp hc2 e he
      have h2 := List.countP_eq_zero.mp hr2 e he
      exact ⟨by simpa using h1, by simpa using h2⟩
    rw [processEvents_append, processEvents_frame k es2 (processEvents es1 initialState) hall]
    exact hrec
  · intro s d hn
    rw [pendingResults_handleToolCall_ok]
    cases hpr : getVal d.id s.pendingResults with
    | none => simp [hpr]
    | some cached =>
      simp only [hpr]
      exact getVal_delVal_self_of_nodup hn
  · intro s d hn
    rw [pendingResults_handleSubAgentToolCall_ok]
    cases hpr : getVal d.id s.pendingResults with
    | none => simp [hpr]
    | some cached =>
      simp only [hpr]
      exact getVal_delVal_self_of_nodup hn

/-- Counterexample to C5 as stated: a duplicate result event for an already
Complete record overwrites its result and prints (and persists) the
completion again, so a record is modified after its Pending-to-Complete
transition. -/
theorem tool_record_lifecycle_counterexample :
    getVal "1" ((handleToolResult (Parsed.ok ⟨"1", "a"⟩)
      (handleToolCall (Parsed.ok ⟨"1", "t", "ar"⟩) initialState)).toolStates) =
      some ⟨"t", "ar", ToolStatus.complete, some "a", none⟩ ∧
    getVal "1" ((handleToolResult (Parsed.ok ⟨"1", "b"⟩)
      (handleToolResult (Parsed.ok ⟨"1", "a"⟩)
        (handleToolCall (Parsed.ok ⟨"1", "t", "ar"⟩) initialState))).toolStates) =
      some ⟨"t", "ar", ToolStatus.complete, some "b", none⟩ ∧
    (handleToolResult (Parsed.ok ⟨"1", "b"⟩)
      (handleToolResult (Parsed.ok ⟨"1", "a"⟩)
        (handleToolCall (Parsed.ok ⟨"1", "t", "ar"⟩) initialState))).console =
      [ConsoleOut.toolCompletePanel "t" "ar" "a", ConsoleOut.toolCompletePanel "t" "ar" "b"] := by
  decide

/-- Witness for C5 on a concrete one-call one-result turn followed by an
unrelated event: nodup keys hold, the completed record survives unchanged,
and a fresh call leaves the cache without its id. -/
theorem tool_record_lifecycle_amended_witness :
    getVal "1" (processEvents
        [Event.toolCall (Parsed.ok ⟨"1", "t", "a"⟩), Event.toolResult (Parsed.ok ⟨"1", "r"⟩),
         Event.modelAnswer "x"] initialState).toolStates =
      some ⟨"t", "a", ToolStatus.complete, some "r", none⟩ ∧
    getVal "9" (handleToolCall (Parsed.ok ⟨"9", "t", "a"⟩) initialState).pendingResults = none ∧
    getVal "9" (handleSubAgentToolCall
        (Parsed.ok ⟨"9", "t", "a", "lab"⟩) initialState).pendingResults = none :=
  ⟨tool_record_lifecycle_amended.2.1 "1"
      [Event.toolCall (Parsed.ok ⟨"1", "t", "a"⟩), Event.toolResult (Parsed.ok ⟨"1", "r"⟩)]
      [Event.modelAnswer "x"] ⟨"t", "a", ToolStatus.complete, some "r", none⟩
      (by decide) (by decide) (by decide) rfl,
   tool_record_lifecycle_amended.2.2.1 initialState ⟨"9", "t", "a"⟩ (by decide),
   tool_record_lifecycle_amended.2.2.2 initialState ⟨"9", "t", "a", "lab"⟩ (by decide)⟩

end Captain
